import Mathlib

/-!
Shallow embedding of the ObjToImdl converter (ObjToImdl.cpp, Imdl.h,
ChunkIO.h, BinaryWriter.h).

Conventions of the embedding:
* C++ `float` is modelled as `ℚ`; the only non-rational float operation in
  the pipeline, `sqrtf` (inside `XMVector3Normalize` and the `Ns` handler),
  is threaded through as an explicit parameter `sqrtQ : ℚ → ℚ`, so every
  theorem below holds for an arbitrary square-root implementation.
* `uint32_t` casts (`static_cast<uint32_t>`) are modelled as `% U32` with
  `U32 = 2 ^ 32`; int32 serialization uses two's complement (`% U32` on `Int`).
* `std::vector` is `List`; `std::unordered_map` / `std::map` are association
  lists with the lookup function `findAssoc` (insertion is cons; for the
  overwriting `operator[]` of `unordered_map`, cons + first-match lookup
  coincides with overwrite semantics).
* Line-oriented parsing (`AnalyzeObj`, `AnalyzeMtl`) is modelled at the
  level of tokenized lines: the `istringstream` token splitting is not
  re-modelled, a line arrives as the corresponding constructor of
  `ObjLine` / `MtlLine` carrying the already-split fields.  In particular
  `ExtractTextureFilename`'s result is the string carried by
  `MtlLine.map_Kd` / `MtlLine.map_Bump`.
* Fallible code (`throw`, `return 1`, `return -1`) becomes `Except`.
* Byte output (`BinaryWriter`, `WriteChunk`, struct writes) is a
  `List Nat` of byte values; the source runs on a little-endian platform
  (x86 Windows), so a `uint32_t` struct field becomes 4 little-endian
  bytes.  IEEE-float byte serialization (`WriteFloat`) is threaded through
  as an explicit parameter `floatBytes : ℚ → List Nat`.
-/

namespace ObjToImdl

/-- 2 ^ 32, the modulus of `uint32_t` arithmetic. -/
def U32 : Nat := 4294967296

-- ---------------------------------------------------------------- --
-- Scalar / vector types (DirectXMath structs, floats as ℚ)
-- ---------------------------------------------------------------- --

structure XMFLOAT2 where
  x : ℚ
  y : ℚ
deriving DecidableEq, Inhabited

structure XMFLOAT3 where
  x : ℚ
  y : ℚ
  z : ℚ
deriving DecidableEq, Inhabited

structure XMFLOAT4 where
  x : ℚ
  y : ℚ
  z : ℚ
  w : ℚ
deriving DecidableEq, Inhabited

/-- Componentwise difference of 3-vectors (`XMVECTOR` subtraction). -/
def sub3 (a b : XMFLOAT3) : XMFLOAT3 := ⟨a.x - b.x, a.y - b.y, a.z - b.z⟩

/-- Scalar multiple of a 3-vector (`XMVECTOR * float`). -/
def smul3 (s : ℚ) (a : XMFLOAT3) : XMFLOAT3 := ⟨s * a.x, s * a.y, s * a.z⟩

/-- Componentwise sum of 3-vectors. -/
def add3 (a b : XMFLOAT3) : XMFLOAT3 := ⟨a.x + b.x, a.y + b.y, a.z + b.z⟩

/-- Dot product (`XMVector3Dot`). -/
def XMVector3Dot (a b : XMFLOAT3) : ℚ := a.x * b.x + a.y * b.y + a.z * b.z

/-- Cross product (`XMVector3Cross`). -/
def XMVector3Cross (a b : XMFLOAT3) : XMFLOAT3 :=
  ⟨a.y * b.z - a.z * b.y, a.z * b.x - a.x * b.z, a.x * b.y - a.y * b.x⟩

/-- `XMVector3Normalize`, with the float square root passed explicitly. -/
def XMVector3Normalize (sqrtQ : ℚ → ℚ) (v : XMFLOAT3) : XMFLOAT3 :=
  let len := sqrtQ (v.x * v.x + v.y * v.y + v.z * v.z)
  ⟨v.x / len, v.y / len, v.z / len⟩

-- ---------------------------------------------------------------- --
-- Association-list lookup, modelling std::map / std::unordered_map find
-- ---------------------------------------------------------------- --

/-- Lookup in an association list; models `map.find(key)`. -/
def findAssoc {α β : Type} [DecidableEq α] : List (α × β) → α → Option β
  | [], _ => none
  | (k, v) :: rest, key => if k = key then some v else findAssoc rest key

-- ---------------------------------------------------------------- --
-- OBJ-side data model (ObjToImdl.cpp, structs FaceIndex .. Object)
-- ---------------------------------------------------------------- --

/-- `struct FaceIndex`: indices of one face corner; -1 = component absent. -/
structure FaceIndex where
  v : Int
  vt : Int
  vn : Int
deriving DecidableEq, Inhabited

/-- `struct Face`: a triangle, `FaceIndex faceIndices[3]`. -/
structure Face where
  fi0 : FaceIndex
  fi1 : FaceIndex
  fi2 : FaceIndex
deriving DecidableEq, Inhabited

/-- The three corners of a triangle, in order (the `faceIndices` array). -/
def Face.faceIndices (f : Face) : List FaceIndex := [f.fi0, f.fi1, f.fi2]

/-- `struct SubMesh`. -/
structure SubMesh where
  material : String
  faces : List Face
deriving DecidableEq, Inhabited

/-- `struct Mesh`. -/
structure Mesh where
  subMeshs : List SubMesh
deriving DecidableEq, Inhabited

/-- `struct Object` (the `mtllib` path kept as a string). -/
structure Object where
  mtllib : String
  positions : List XMFLOAT3
  normals : List XMFLOAT3
  texcoords : List XMFLOAT2
  meshes : List Mesh
deriving DecidableEq, Inhabited

-- ---------------------------------------------------------------- --
-- Face-line parsing (ParseFaceLine and its fixIndex lambda)
-- ---------------------------------------------------------------- --

/-- Error conditions of `AnalyzeObj` / `ParseFaceLine`.
`zeroIndex` is the `throw std::runtime_error("OBJ index cannot be zero")`;
`noMaterialAssigned` is the `... has no material assigned.` + `return 1`
path and carries the current object name printed there;
`meshesBackOnEmpty` marks the undefined behaviour of calling
`meshes.back()` on an empty vector (a `usemtl` line before any `o` line). -/
inductive ObjError where
  | zeroIndex
  | noMaterialAssigned (objectName : String)
  | meshesBackOnEmpty
deriving DecidableEq

/-- The `fixIndex` lambda of `ParseFaceLine`: resolves a 1-based / negative
OBJ index literal against the current array size. -/
def fixIndex (raw size : Int) : Except ObjError Int :=
  if raw > 0 then .ok (raw - 1)
  else if raw < 0 then .ok (size + raw)
  else .error .zeroIndex

/-- One whitespace-separated face-line token, already split at the slashes:
`v/vt/vn` with `vt`, `vn` possibly absent (missing or empty component). -/
structure FaceToken where
  v : Int
  vt : Option Int
  vn : Option Int
deriving DecidableEq, Inhabited

/-- Resolution of one face token inside `ParseFaceLine`: each present
component goes through `fixIndex` against the matching array length,
absent components stay at the `-1` initializer. -/
def parseFaceToken (object : Object) (tok : FaceToken) : Except ObjError FaceIndex := do
  let v ← fixIndex tok.v object.positions.length
  let vt ← match tok.vt with
    | none => pure (-1 : Int)
    | some n => fixIndex n object.texcoords.length
  let vn ← match tok.vn with
    | none => pure (-1 : Int)
    | some n => fixIndex n object.normals.length
  pure ⟨v, vt, vn⟩

/-- `ParseFaceLine`, at the level of tokenized corners. -/
def ParseFaceLine (tokens : List FaceToken) (object : Object) :
    Except ObjError (List FaceIndex) :=
  tokens.mapM (parseFaceToken object)

/-- The fan-triangulation loop in the `f` branch of `AnalyzeObj`:
`for (i = 0; i < result.size() - 2; i++) Face{result[0], result[i+1], result[i+2]}`.
(For fewer than 2 corners the C++ `size_t` subtraction wraps around and the
loop is undefined behaviour; the model's `Nat` subtraction yields no
triangles there.  All claims are about `k ≥ 3`.) -/
def fanTriangles (result : List FaceIndex) : List Face :=
  (List.range (result.length - 2)).map fun i =>
    ⟨result.getD 0 default, result.getD (i + 1) default, result.getD (i + 2) default⟩

-- ---------------------------------------------------------------- --
-- AnalyzeObj (tokenized lines)
-- ---------------------------------------------------------------- --

/-- One tokenized line of the .obj file.  `skip` covers blank lines,
comments and unrecognized keywords. -/
inductive ObjLine where
  | o (name : String)
  | v (val : XMFLOAT3)
  | vn (val : XMFLOAT3)
  | vt (val : XMFLOAT2)
  | f (tokens : List FaceToken)
  | usemtl (name : String)
  | mtllib (name : String)
  | skip
deriving DecidableEq, Inhabited

/-- Parser state of `AnalyzeObj`: the object being built, the
`std::vector<Face>* pFace` target (as a (mesh index, submesh index) pair —
when set it always designates the submesh created by the last `usemtl`),
and the current `object_name`. -/
structure ObjState where
  object : Object
  pFace : Option (Nat × Nat)
  objectName : String
deriving DecidableEq, Inhabited

/-- Append faces to the submesh designated by `(mi, si)` (the `pFace`
target).  Out-of-range indices leave the meshes unchanged; `pFace` always
points at a live submesh when set. -/
def appendFacesAt (meshes : List Mesh) (mi si : Nat) (fs : List Face) : List Mesh :=
  match meshes.get? mi with
  | none => meshes
  | some m =>
    match m.subMeshs.get? si with
    | none => meshes
    | some sm =>
      meshes.set mi { m with subMeshs := m.subMeshs.set si { sm with faces := sm.faces ++ fs } }

/-- One iteration of the `AnalyzeObj` line loop. -/
def analyzeObjStep (st : ObjState) (line : ObjLine) : Except ObjError ObjState :=
  match line with
  | .o name =>
    .ok { st with
          objectName := name
          object := { st.object with meshes := st.object.meshes ++ [⟨[]⟩] }
          pFace := none }
  | .v val =>
    .ok { st with object := { st.object with positions := st.object.positions ++ [val] } }
  | .vn val =>
    .ok { st with object := { st.object with normals := st.object.normals ++ [val] } }
  | .vt val =>
    -- Blender's V coordinate is flipped: uv.y = 1.0f - uv.y
    .ok { st with object := { st.object with
            texcoords := st.object.texcoords ++ [⟨val.x, 1 - val.y⟩] } }
  | .f tokens =>
    match st.pFace with
    | none => .error (.noMaterialAssigned st.objectName)
    | some (mi, si) => do
      let result ← ParseFaceLine tokens st.object
      .ok { st with object := { st.object with
              meshes := appendFacesAt st.object.meshes mi si (fanTriangles result) } }
  | .usemtl name =>
    match st.object.meshes.getLast? with
    | none => .error .meshesBackOnEmpty
    | some m =>
      let mi := st.object.meshes.length - 1
      let m' := { m with subMeshs := m.subMeshs ++ [⟨name, []⟩] }
      .ok { st with
            object := { st.object with meshes := st.object.meshes.set mi m' }
            pFace := some (mi, m'.subMeshs.length - 1) }
  | .mtllib name =>
    .ok { st with object := { st.object with mtllib := name } }
  | .skip => .ok st

/-- Initial state of `AnalyzeObj` (empty `Object`, null `pFace`,
empty `object_name`). -/
def objInitState : ObjState := ⟨⟨"", [], [], [], []⟩, none, ""⟩

/-- `AnalyzeObj` over a tokenized line list. -/
def AnalyzeObj (lines : List ObjLine) : Except ObjError ObjState :=
  lines.foldlM analyzeObjStep objInitState

-- ---------------------------------------------------------------- --
-- Imdl.h data model
-- ---------------------------------------------------------------- --

/-- `enum class TextureType` of Imdl.h. -/
inductive TextureType where
  | BaseColor
  | Normal
  | MetalRough
  | Emissive
deriving DecidableEq, Inhabited

/-- The underlying integer of a `TextureType` value (plain enum class,
values 0..3 in declaration order). -/
def textureTypeValue : TextureType → Nat
  | .BaseColor => 0
  | .Normal => 1
  | .MetalRough => 2
  | .Emissive => 3

/-- `struct TextureEntry`: role tag plus DDS blob bytes. -/
structure TextureEntry where
  type : TextureType
  data : List Nat
deriving DecidableEq, Inhabited

/-- `struct MaterialInfo` with its in-class default initializers. -/
structure MaterialInfo where
  diffuseColor : XMFLOAT4 := ⟨1, 1, 1, 1⟩
  metallicFactor : ℚ := 0
  roughnessFactor : ℚ := 1
  emissiveColor : XMFLOAT3 := ⟨0, 0, 0⟩
  baseColorTexIndex : Int := -1
  normalTexIndex : Int := -1
  metalRoughTexIndex : Int := -1
  emissiveTexIndex : Int := -1
deriving DecidableEq, Inhabited

/-- `struct MeshInfo` (all fields `uint32_t`). -/
structure MeshInfo where
  startIndex : Nat
  primCount : Nat
  materialIndex : Nat
deriving DecidableEq, Inhabited

/-- `struct VertexPositionNormalTextureTangent`. -/
structure VertexPositionNormalTextureTangent where
  position : XMFLOAT3
  normal : XMFLOAT3
  texcoord : XMFLOAT2
  tangent : XMFLOAT4
deriving DecidableEq, Inhabited

/-- `struct FileHeader` of Imdl.h, as decoded values. -/
structure FileHeader where
  magic : Nat
  version : Nat
  chunkCount : Nat
deriving DecidableEq, Inhabited

/-- `struct ChunkHeader` of ChunkIO.h, as decoded values. -/
structure ChunkHeader where
  type : Nat
  size : Nat
deriving DecidableEq, Inhabited

/-- A multi-character literal such as `'IMDL'` on MSVC: the big-endian
four-character code `((a*256+b)*256+c)*256+d` of the four ASCII bytes. -/
def fourCC (a b c d : Nat) : Nat := ((a * 256 + b) * 256 + c) * 256 + d

/-- `CHUNK_TEXTURE = 'TXTR'` (ASCII 84 88 84 82). -/
def CHUNK_TEXTURE : Nat := fourCC 84 88 84 82

/-- `CHUNK_MATERIAL = 'MTRL'` (ASCII 77 84 82 76). -/
def CHUNK_MATERIAL : Nat := fourCC 77 84 82 76

/-- `CHUNK_MESH = 'MESH'` (ASCII 77 69 83 72). -/
def CHUNK_MESH : Nat := fourCC 77 69 83 72

/-- `CHUNK_VERTEX = 'VERT'` (ASCII 86 69 82 84). -/
def CHUNK_VERTEX : Nat := fourCC 86 69 82 84

/-- `CHUNK_INDEX = 'INDX'` (ASCII 73 78 68 88). -/
def CHUNK_INDEX : Nat := fourCC 73 78 68 88

/-- The file magic `'IMDL'` (ASCII 73 77 68 76). -/
def IMDL_MAGIC : Nat := fourCC 73 77 68 76

-- ---------------------------------------------------------------- --
-- BinaryWriter.h: byte-level serialization (little-endian platform)
-- ---------------------------------------------------------------- --

/-- The four little-endian bytes of a `uint32_t` value
(`BinaryWriter::WriteUInt32` / a `uint32_t` struct field written by
`ofs.write`).  Values ≥ 2^32 wrap, modelling the C++ cast. -/
def le32 (n : Nat) : List Nat :=
  [n % 256, n / 256 % 256, n / 65536 % 256, n / 16777216 % 256]

/-- The four little-endian bytes of an `int32_t` value, two's complement
(`BinaryWriter::WriteInt32`). -/
def le32i (i : Int) : List Nat := le32 (i % (U32 : Int)).toNat

/-- Decode a `uint32_t` from the first four bytes of a byte list
(little-endian read of a struct field by `ifs.read`). -/
def decodeLE32 (bytes : List Nat) : Nat :=
  bytes.getD 0 0 + 256 * (bytes.getD 1 0 + 256 * (bytes.getD 2 0 + 256 * bytes.getD 3 0))

/-- `BuildTextureChunk`: uint32 count, then per texture uint32 type,
uint32 size, raw DDS bytes. -/
def BuildTextureChunk (textures : List TextureEntry) : List Nat :=
  le32 textures.length ++
    textures.flatMap fun tex =>
      le32 (textureTypeValue tex.type) ++ le32 tex.data.length ++ tex.data

/-- `SerializeMaterial`: 10 floats then 4 int32 texture indices. -/
def SerializeMaterial (floatBytes : ℚ → List Nat) (m : MaterialInfo) : List Nat :=
  floatBytes m.diffuseColor.x ++ floatBytes m.diffuseColor.y ++
  floatBytes m.diffuseColor.z ++ floatBytes m.diffuseColor.w ++
  floatBytes m.metallicFactor ++ floatBytes m.roughnessFactor ++
  floatBytes m.emissiveColor.x ++ floatBytes m.emissiveColor.y ++
  floatBytes m.emissiveColor.z ++
  le32i m.baseColorTexIndex ++ le32i m.normalTexIndex ++
  le32i m.metalRoughTexIndex ++ le32i m.emissiveTexIndex

/-- `BuildMaterialChunk`: uint32 count then serialized materials. -/
def BuildMaterialChunk (floatBytes : ℚ → List Nat) (materials : List MaterialInfo) : List Nat :=
  le32 materials.length ++ materials.flatMap (SerializeMaterial floatBytes)

/-- `SerializeMesh`: startIndex, primCount, materialIndex as uint32. -/
def SerializeMesh (m : MeshInfo) : List Nat :=
  le32 m.startIndex ++ le32 m.primCount ++ le32 m.materialIndex

/-- `BuildMeshChunk`: uint32 count then serialized mesh records. -/
def BuildMeshChunk (meshes : List MeshInfo) : List Nat :=
  le32 meshes.length ++ meshes.flatMap SerializeMesh

/-- `SerializeVertex`: position, normal, texcoord, tangent floats. -/
def SerializeVertex (floatBytes : ℚ → List Nat)
    (v : VertexPositionNormalTextureTangent) : List Nat :=
  floatBytes v.position.x ++ floatBytes v.position.y ++ floatBytes v.position.z ++
  floatBytes v.normal.x ++ floatBytes v.normal.y ++ floatBytes v.normal.z ++
  floatBytes v.texcoord.x ++ floatBytes v.texcoord.y ++
  floatBytes v.tangent.x ++ floatBytes v.tangent.y ++
  floatBytes v.tangent.z ++ floatBytes v.tangent.w

/-- `BuildVertexChunk`: uint32 count then serialized vertices. -/
def BuildVertexChunk (floatBytes : ℚ → List Nat)
    (vertices : List VertexPositionNormalTextureTangent) : List Nat :=
  le32 vertices.length ++ vertices.flatMap (SerializeVertex floatBytes)

/-- `BuildIndexChunk` via `BinaryWriter::WriteVector`: uint32 count then
the raw uint32 array. -/
def BuildIndexChunk (indices : List Nat) : List Nat :=
  le32 indices.length ++ indices.flatMap le32

/-- `WriteChunk` of ChunkIO.h: 8-byte `ChunkHeader` (type, size) then the
payload bytes.  The `size` field is `(uint32_t)data.size()`, which `le32`
wraps as the cast does. -/
def WriteChunk (type : Nat) (data : List Nat) : List Nat :=
  le32 type ++ le32 data.length ++ data

/-- `OutputImdl`: 12-byte `FileHeader` (magic `'IMDL'`, version 1,
chunkCount 5), then the five chunks TEXTURE, MATERIAL, MESH, VERTEX,
INDEX in that order. -/
def OutputImdl (floatBytes : ℚ → List Nat)
    (materials : List MaterialInfo) (meshInfo : List MeshInfo)
    (textures : List TextureEntry)
    (vertexBuffer : List VertexPositionNormalTextureTangent)
    (indexBuffer : List Nat) : List Nat :=
  le32 IMDL_MAGIC ++ le32 1 ++ le32 5 ++
  WriteChunk CHUNK_TEXTURE (BuildTextureChunk textures) ++
  WriteChunk CHUNK_MATERIAL (BuildMaterialChunk floatBytes materials) ++
  WriteChunk CHUNK_MESH (BuildMeshChunk meshInfo) ++
  WriteChunk CHUNK_VERTEX (BuildVertexChunk floatBytes vertexBuffer) ++
  WriteChunk CHUNK_INDEX (BuildIndexChunk indexBuffer)

-- ---------------------------------------------------------------- --
-- ChunkIO.h reading side
-- ---------------------------------------------------------------- --

/-- `ifs.read(buf, n)` on a stream holding `s`: succeeds iff at least `n`
bytes remain, consuming exactly `n`. -/
def readBytes (n : Nat) (s : List Nat) : Option (List Nat × List Nat) :=
  if n ≤ s.length then some (s.take n, s.drop n) else none

/-- `ReadChunk` of ChunkIO.h: read the 8-byte header, then exactly
`header.size` payload bytes; either short read makes the whole call fail
(`return false`), so no partially-read chunk is ever returned. -/
def ReadChunk (s : List Nat) : Option (ChunkHeader × List Nat × List Nat) :=
  match readBytes 8 s with
  | none => none
  | some (hdr, s1) =>
    let header : ChunkHeader := ⟨decodeLE32 (hdr.take 4), decodeLE32 (hdr.drop 4)⟩
    match readBytes header.size s1 with
    | none => none
    | some (payload, s2) => some (header, payload, s2)

/-- Read `n` consecutive chunks with `ReadChunk`, failing if any read
fails. -/
def readChunks : Nat → List Nat → Option (List (ChunkHeader × List Nat) × List Nat)
  | 0, s => some ([], s)
  | n + 1, s =>
    match ReadChunk s with
    | none => none
    | some (h, p, s1) =>
      match readChunks n s1 with
      | none => none
      | some (rest, s2) => some ((h, p) :: rest, s2)

/-- Modelled from the spec: the container-level decoder (the loop driving
`ReadChunk`, which lives in the engine-side loader, not in this
repository).  Per spec §4.4/§6/§9 it reads the 12-byte `FileHeader`,
rejects a malformed magic, and then reads `chunkCount` chunks via
`ReadChunk` (which is taken from ChunkIO.h); any short read is fatal. -/
def readContainer (s : List Nat) :
    Option (FileHeader × List (ChunkHeader × List Nat)) :=
  match readBytes 12 s with
  | none => none
  | some (hdrB, s1) =>
    let header : FileHeader :=
      ⟨decodeLE32 (hdrB.take 4), decodeLE32 ((hdrB.drop 4).take 4), decodeLE32 (hdrB.drop 8)⟩
    if header.magic = IMDL_MAGIC then
      match readChunks header.chunkCount s1 with
      | none => none
      | some (chunks, _) => some (header, chunks)
    else
      none

-- ---------------------------------------------------------------- --
-- AnalyzeMtl (tokenized lines) and RegisterTexture
-- ---------------------------------------------------------------- --

/-- Error conditions of `AnalyzeMtl` (its `return -1` paths).
`materialsBackOnEmpty` marks the undefined behaviour of mutating
`materials.back()` while the vector is empty (an attribute line before
any `newmtl`). -/
inductive MtlError where
  | emptyTextureName
  | textureNotFound (path : String)
  | materialsBackOnEmpty
deriving DecidableEq

/-- One tokenized line of the .mtl file.  `map_Kd` / `map_Bump` carry the
filename already extracted by `ExtractTextureFilename` (option flags
stripped); `skip` covers blank lines, comments and other keywords. -/
inductive MtlLine where
  | newmtl (name : String)
  | Kd (color : XMFLOAT3)
  | Ks (color : XMFLOAT3)
  | Ns (value : ℚ)
  | Ke (color : XMFLOAT3)
  | map_Kd (name : String)
  | map_Bump (name : String)
  | skip
deriving DecidableEq

/-- Parser state of `AnalyzeMtl`: the four output tables and the running
`m_index` counter. -/
structure MtlState where
  materials : List MaterialInfo
  materialIndexMap : List (String × Nat)
  textures : List TextureEntry
  textureIndexMap : List ((String × TextureType) × Int)
  m_index : Nat
deriving DecidableEq

/-- Initial state of `AnalyzeMtl` (all tables empty, `m_index = 0`). -/
def mtlInitState : MtlState := ⟨[], [], [], [], 0⟩

/-- Mutation of the most recently declared material,
`materials.back() = f(materials.back())`.  Callers guard against an empty
vector (where `back()` would be undefined behaviour). -/
def setBack (ms : List MaterialInfo) (f : MaterialInfo → MaterialInfo) :
    List MaterialInfo :=
  ms.set (ms.length - 1) (f (ms.getD (ms.length - 1) {}))

/-- `RegisterTexture`: memoized DDS conversion and registration.  `codec`
stands for the external `LoadFromWICFile` + `ConvertToDDSMemory`
pipeline, returning the DDS bytes or failing; on either external failure
the source returns -1 and leaves `textures` / `textureIndexMap`
untouched. -/
def RegisterTexture (codec : String → TextureType → Option (List Nat))
    (path : String) (type : TextureType)
    (textures : List TextureEntry)
    (textureIndexMap : List ((String × TextureType) × Int)) :
    Int × List TextureEntry × List ((String × TextureType) × Int) :=
  match findAssoc textureIndexMap (path, type) with
  | some i => (i, textures, textureIndexMap)
  | none =>
    match codec path type with
    | none => (-1, textures, textureIndexMap)
    | some dds =>
      let newIndex : Int := textures.length
      (newIndex, textures ++ [⟨type, dds⟩], ((path, type), newIndex) :: textureIndexMap)

/-- The existence fallback of the `map_Kd` / `map_Bump` handlers: try the
extracted filename as given; if no such file, retry next to the .mtl file
(`path.parent_path() / p.filename()`, modelled for slash-free filenames
as `mtlDir ++ "/" ++ name`); if that also misses, fail. -/
def resolveTexturePath (ex : String → Bool) (mtlDir name : String) : Option String :=
  if ex name then some name
  else if ex (mtlDir ++ "/" ++ name) then some (mtlDir ++ "/" ++ name)
  else none

/-- One iteration of the `AnalyzeMtl` line loop.  `ex` models
`std::filesystem::exists`; `codec` the texture codec; `mtlDir` the .mtl
file's parent directory. -/
def analyzeMtlStep (sqrtQ : ℚ → ℚ) (ex : String → Bool)
    (codec : String → TextureType → Option (List Nat)) (mtlDir : String)
    (st : MtlState) (line : MtlLine) : Except MtlError MtlState :=
  match line with
  | .newmtl name =>
    .ok { st with
          materials := st.materials ++ [{}]
          materialIndexMap := (name, st.m_index) :: st.materialIndexMap
          m_index := st.m_index + 1 }
  | .Kd color =>
    if st.materials = [] then .error .materialsBackOnEmpty
    else .ok { st with materials := setBack st.materials fun m =>
      { m with diffuseColor := ⟨color.x, color.y, color.z, 1⟩ } }
  | .Ks color =>
    if st.materials = [] then .error .materialsBackOnEmpty
    else .ok { st with materials := setBack st.materials fun m =>
      { m with metallicFactor := color.x } }
  | .Ns value =>
    -- roughness = 1.0f - sqrtf(Ns / 1000.0f)
    if st.materials = [] then .error .materialsBackOnEmpty
    else .ok { st with materials := setBack st.materials fun m =>
      { m with roughnessFactor := 1 - sqrtQ (value / 1000) } }
  | .Ke color =>
    if st.materials = [] then .error .materialsBackOnEmpty
    else .ok { st with materials := setBack st.materials fun m =>
      { m with emissiveColor := color } }
  | .map_Kd name =>
    -- the whole block is guarded by if (!materials.empty())
    if st.materials = [] then .ok st
    else if name = "" then .error .emptyTextureName
    else
      match resolveTexturePath ex mtlDir name with
      | none => .error (.textureNotFound (mtlDir ++ "/" ++ name))
      | some p =>
        let r := RegisterTexture codec p .BaseColor st.textures st.textureIndexMap
        .ok { st with
              materials := setBack st.materials fun m =>
                { m with baseColorTexIndex := r.1 }
              textures := r.2.1
              textureIndexMap := r.2.2 }
  | .map_Bump name =>
    if st.materials = [] then .ok st
    else if name = "" then .error .emptyTextureName
    else
      match resolveTexturePath ex mtlDir name with
      | none => .error (.textureNotFound (mtlDir ++ "/" ++ name))
      | some p =>
        let r := RegisterTexture codec p .Normal st.textures st.textureIndexMap
        .ok { st with
              materials := setBack st.materials fun m =>
                { m with normalTexIndex := r.1 }
              textures := r.2.1
              textureIndexMap := r.2.2 }
  | .skip => .ok st

/-- `AnalyzeMtl` over a tokenized line list. -/
def AnalyzeMtl (sqrtQ : ℚ → ℚ) (ex : String → Bool)
    (codec : String → TextureType → Option (List Nat)) (mtlDir : String)
    (lines : List MtlLine) : Except MtlError MtlState :=
  lines.foldlM (analyzeMtlStep sqrtQ ex codec mtlDir) mtlInitState

-- ---------------------------------------------------------------- --
-- CreateBufferData (vertex consolidation)
-- ---------------------------------------------------------------- --

/-- `MakeVertex`: build one consolidated vertex from a face corner — the
position is read directly, the normal is normalized (or the dummy
(0,0,1) when the corner has no normal reference), the texcoord defaults
to (0,0) when absent, and the tangent starts zeroed (`v = {}`). -/
def MakeVertex (sqrtQ : ℚ → ℚ) (object : Object) (face : FaceIndex) :
    VertexPositionNormalTextureTangent :=
  { position := object.positions.getD face.v.toNat ⟨0, 0, 0⟩
    normal :=
      if 0 ≤ face.vn then
        XMVector3Normalize sqrtQ (object.normals.getD face.vn.toNat ⟨0, 0, 0⟩)
      else ⟨0, 0, 1⟩
    texcoord :=
      if 0 ≤ face.vt then object.texcoords.getD face.vt.toNat ⟨0, 0⟩ else ⟨0, 0⟩
    tangent := ⟨0, 0, 0, 0⟩ }

/-- The working state of `CreateBufferData`: the local
`unordered_map<FaceIndex, uint32_t> indexMap` plus the three output
parameters `meshInfo`, `vertexBuffer`, `indexBuffer`. -/
structure BufState where
  indexMap : List (FaceIndex × Nat)
  meshInfo : List MeshInfo
  vertexBuffer : List VertexPositionNormalTextureTangent
  indexBuffer : List Nat
deriving DecidableEq, Inhabited

/-- The innermost loop body of `CreateBufferData` (one face corner): on a
map hit append the existing vertex index to the index buffer; on a miss
append a fresh vertex, record the key at the new slot
(`(uint32_t)vertexBuffer.size()`), and append that index. -/
def processCorner (sqrtQ : ℚ → ℚ) (object : Object) (st : BufState)
    (fi : FaceIndex) : BufState :=
  match findAssoc st.indexMap fi with
  | some idx => { st with indexBuffer := st.indexBuffer ++ [idx] }
  | none =>
    let newIndex := st.vertexBuffer.length % U32
    { st with
      indexMap := (fi, newIndex) :: st.indexMap
      vertexBuffer := st.vertexBuffer ++ [MakeVertex sqrtQ object fi]
      indexBuffer := st.indexBuffer ++ [newIndex] }

/-- The corners of one submesh in processing order (its faces in order,
three corners per face). -/
def cornersOfSub (sm : SubMesh) : List FaceIndex :=
  sm.faces.flatMap Face.faceIndices

/-- The per-submesh body of `CreateBufferData`: look the material name up
(throw "Material not found" when absent), push a `MeshInfo` record with
the current index-buffer length and the face count (both cast to
uint32), then process all corners of the submesh. -/
def processSubMesh (sqrtQ : ℚ → ℚ) (object : Object)
    (materialIndexMap : List (String × Nat)) (st : BufState) (sm : SubMesh) :
    Except String BufState :=
  match findAssoc materialIndexMap sm.material with
  | none => .error ("Material not found: " ++ sm.material)
  | some mi =>
    let data : MeshInfo :=
      ⟨st.indexBuffer.length % U32, sm.faces.length % U32, mi⟩
    let st1 := { st with meshInfo := st.meshInfo ++ [data] }
    .ok ((cornersOfSub sm).foldl (processCorner sqrtQ object) st1)

/-- The submeshes of the scene in encounter order (`CreateBufferData`
iterates the meshes and, inside each, its submeshes). -/
def sceneSubMeshes (object : Object) : List SubMesh :=
  object.meshes.flatMap Mesh.subMeshs

/-- All face-corner occurrences of the scene in processing order. -/
def sceneCorners (object : Object) : List FaceIndex :=
  (sceneSubMeshes object).flatMap cornersOfSub

/-- `CreateBufferData`, starting from an empty map and empty buffers. -/
def CreateBufferData (sqrtQ : ℚ → ℚ) (object : Object)
    (materialIndexMap : List (String × Nat)) : Except String BufState :=
  (sceneSubMeshes object).foldlM (processSubMesh sqrtQ object materialIndexMap)
    ⟨[], [], [], []⟩

/-- Proof-side: the `MeshInfo` records `CreateBufferData` emits for a
submesh list entered with `ibLen` indices already emitted. -/
def expectedRecords (materialIndexMap : List (String × Nat)) (ibLen : Nat) :
    List SubMesh → List MeshInfo
  | [] => []
  | sm :: rest =>
    ⟨ibLen % U32, sm.faces.length % U32,
        (findAssoc materialIndexMap sm.material).getD 0⟩ ::
      expectedRecords materialIndexMap (ibLen + 3 * sm.faces.length) rest

/-- Proof-side: the total triangle count of a submesh list. -/
def totalFaces (subs : List SubMesh) : Nat :=
  (subs.map fun sm => sm.faces.length).sum

/-- The consolidation invariant: every map entry points below the vertex
buffer's end, keys and slot values are unrepeated, every slot is the
value of some entry, and the vertex buffer never outgrows the index
buffer. -/
def BufInv (st : BufState) : Prop :=
  (∀ p ∈ st.indexMap, p.2 < st.vertexBuffer.length) ∧
  (st.indexMap.map Prod.fst).Nodup ∧
  (st.indexMap.map Prod.snd).Nodup ∧
  (∀ j, j < st.vertexBuffer.length → ∃ k, (k, j) ∈ st.indexMap) ∧
  st.vertexBuffer.length ≤ st.indexBuffer.length

-- ---------------------------------------------------------------- --
-- GenerateTangents
-- ---------------------------------------------------------------- --

/-- The two per-vertex accumulator arrays of `GenerateTangents`
(`tanAccum`, `bitanAccum`, both starting as `vertices.size()` zero
vectors). -/
structure TBAccum where
  tanAccum : List XMFLOAT3
  bitanAccum : List XMFLOAT3
deriving DecidableEq, Inhabited

/-- The `add` lambda of `GenerateTangents`: componentwise `+=` of a
tangent/bitangent contribution at `idx`. -/
def addTB (acc : TBAccum) (idx : Nat) (t b : XMFLOAT3) : TBAccum :=
  { tanAccum := acc.tanAccum.set idx (add3 (acc.tanAccum.getD idx ⟨0, 0, 0⟩) t)
    bitanAccum := acc.bitanAccum.set idx (add3 (acc.bitanAccum.getD idx ⟨0, 0, 0⟩) b) }

/-- The `set` lambda of `GenerateTangents`: overwrite both accumulators
at `idx`. -/
def setTB (acc : TBAccum) (idx : Nat) (t b : XMFLOAT3) : TBAccum :=
  { tanAccum := acc.tanAccum.set idx t
    bitanAccum := acc.bitanAccum.set idx b }

/-- The `isFlatFace` lambda: a triangle counts as flat when the dot
products n0·n1 and n1·n2 of its vertex normals both exceed 0.999f. -/
def isFlatFace (vertices : List VertexPositionNormalTextureTangent)
    (i0 i1 i2 : Nat) : Bool :=
  let n0 := (vertices.getD i0 default).normal
  let n1 := (vertices.getD i1 default).normal
  let n2 := (vertices.getD i2 default).normal
  let d01 := XMVector3Dot n0 n1
  let d12 := XMVector3Dot n1 n2
  decide (999 / 1000 < d01 ∧ 999 / 1000 < d12)

/-- The UV-area denominator `denom = du1*dv2 - du2*dv1` of one triangle
of the tangent pass. -/
def triDenom (vertices : List VertexPositionNormalTextureTangent)
    (i0 i1 i2 : Nat) : ℚ :=
  let v0 := vertices.getD i0 default
  let v1 := vertices.getD i1 default
  let v2 := vertices.getD i2 default
  (v1.texcoord.x - v0.texcoord.x) * (v2.texcoord.y - v0.texcoord.y) -
    (v2.texcoord.x - v0.texcoord.x) * (v1.texcoord.y - v0.texcoord.y)

/-- The tangent `T = (e1*dv2 - e2*dv1) * f` of one triangle
(`f = 1/denom`). -/
def triT (vertices : List VertexPositionNormalTextureTangent)
    (i0 i1 i2 : Nat) : XMFLOAT3 :=
  let v0 := vertices.getD i0 default
  let v1 := vertices.getD i1 default
  let v2 := vertices.getD i2 default
  let dv1 := v1.texcoord.y - v0.texcoord.y
  let dv2 := v2.texcoord.y - v0.texcoord.y
  let f := 1 / triDenom vertices i0 i1 i2
  let e1 := sub3 v1.position v0.position
  let e2 := sub3 v2.position v0.position
  smul3 f (sub3 (smul3 dv2 e1) (smul3 dv1 e2))

/-- The bitangent `B = (e2*du1 - e1*du2) * f` of one triangle. -/
def triB (vertices : List VertexPositionNormalTextureTangent)
    (i0 i1 i2 : Nat) : XMFLOAT3 :=
  let v0 := vertices.getD i0 default
  let v1 := vertices.getD i1 default
  let v2 := vertices.getD i2 default
  let du1 := v1.texcoord.x - v0.texcoord.x
  let du2 := v2.texcoord.x - v0.texcoord.x
  let f := 1 / triDenom vertices i0 i1 i2
  let e1 := sub3 v1.position v0.position
  let e2 := sub3 v2.position v0.position
  smul3 f (sub3 (smul3 du1 e2) (smul3 du2 e1))

/-- The body of the per-triangle loop of `GenerateTangents`: skip when
`fabs(denom) < 1e-6f`, otherwise overwrite (flat) or accumulate (smooth)
at the triangle's three vertices. -/
def tangentStep (vertices : List VertexPositionNormalTextureTangent)
    (acc : TBAccum) (tri : Nat × Nat × Nat) : TBAccum :=
  let i0 := tri.1
  let i1 := tri.2.1
  let i2 := tri.2.2
  let denom := triDenom vertices i0 i1 i2
  if |denom| < 1 / 1000000 then acc
  else
    let t := triT vertices i0 i1 i2
    let b := triB vertices i0 i1 i2
    if isFlatFace vertices i0 i1 i2 then
      setTB (setTB (setTB acc i0 t b) i1 t b) i2 t b
    else
      addTB (addTB (addTB acc i0 t b) i1 t b) i2 t b

/-- The triangles `(indices[i], indices[i+1], indices[i+2])` visited by
the loop `for (i = 0; i + 2 < indices.size(); i += 3)` (a trailing
remainder of 1-2 indices is ignored). -/
def triangleList : List Nat → List (Nat × Nat × Nat)
  | i0 :: i1 :: i2 :: rest => (i0, i1, i2) :: triangleList rest
  | _ => []

/-- The accumulation phase of `GenerateTangents`. -/
def accumulateTangents (vertices : List VertexPositionNormalTextureTangent)
    (indices : List Nat) : TBAccum :=
  (triangleList indices).foldl (tangentStep vertices)
    ⟨List.replicate vertices.length ⟨0, 0, 0⟩,
     List.replicate vertices.length ⟨0, 0, 0⟩⟩

/-- The normalization & handedness pass of `GenerateTangents` for one
vertex: Gram-Schmidt the accumulated tangent against the normal, compute
the handedness sign, and write the vertex's tangent field (nothing
else). -/
def finalizeVertex (sqrtQ : ℚ → ℚ) (v : VertexPositionNormalTextureTangent)
    (t b : XMFLOAT3) : VertexPositionNormalTextureTangent :=
  let N := v.normal
  let T := XMVector3Normalize sqrtQ (sub3 t (smul3 (XMVector3Dot N t) N))
  let w : ℚ := if XMVector3Dot (XMVector3Cross N T) b < 0 then -1 else 1
  { v with tangent := ⟨T.x, T.y, T.z, w⟩ }

/-- `GenerateTangents`: accumulate per-triangle tangents/bitangents, then
write every vertex's tangent field once.  The index buffer is a const
reference in the source and is never written. -/
def GenerateTangents (sqrtQ : ℚ → ℚ)
    (vertices : List VertexPositionNormalTextureTangent)
    (indices : List Nat) : List VertexPositionNormalTextureTangent :=
  let acc := accumulateTangents vertices indices
  (List.range vertices.length).map fun i =>
    finalizeVertex sqrtQ (vertices.getD i default)
      (acc.tanAccum.getD i ⟨0, 0, 0⟩) (acc.bitanAccum.getD i ⟨0, 0, 0⟩)

-- ---------------------------------------------------------------- --
-- Proof-side helpers and concrete demonstration inputs
-- ---------------------------------------------------------------- --

/-- Concatenation of a list of encoded chunks (proof-side helper for
stating facts about chunk streams). -/
def encodeChunkList (cs : List (Nat × List Nat)) : List Nat :=
  cs.flatMap fun c => WriteChunk c.1 c.2

/-- A trivial stand-in for the IEEE-float byte serializer, used to
instantiate `floatBytes` in concrete witnesses. -/
def floatBytes0 : ℚ → List Nat := fun _ => [0, 0, 0, 0]

/-- The identity, standing in for `sqrtf` in concrete witnesses. -/
def idq : ℚ → ℚ := fun q => q

/-- A filesystem in which every path exists. -/
def existsAlways : String → Bool := fun _ => true

/-- A filesystem in which no path exists. -/
def existsNever : String → Bool := fun _ => false

/-- A filesystem in which only the path "dir/t.png" exists (the texture
is found next to the .mtl file but not under the name as given). -/
def existsOnlyInDir : String → Bool := fun p => p == "dir/t.png"

/-- A texture codec that fails on every input (e.g. a WIC decode or DDS
compression failure). -/
def codecNone : String → TextureType → Option (List Nat) := fun _ _ => none

/-- A texture codec that always produces a one-byte blob. -/
def codecConst : String → TextureType → Option (List Nat) := fun _ _ => some [7]

/-- A small `AnalyzeMtl` state holding one default material. -/
def demoMtlState : MtlState := ⟨[{}], [("m", 0)], [], [], 1⟩

/-- A texture codec that succeeds only on the path "a.png". -/
def codecOnlyA : String → TextureType → Option (List Nat) :=
  fun p _ => if p = "a.png" then some [7] else none

/-- Four vertices with identical normals (a flat face plus one vertex
referenced by no triangle); the triangle (0,1,2) has a non-degenerate UV
mapping. -/
def demoVsFlat : List VertexPositionNormalTextureTangent :=
  [⟨⟨0, 0, 0⟩, ⟨0, 0, 1⟩, ⟨0, 0⟩, ⟨0, 0, 0, 0⟩⟩,
   ⟨⟨1, 0, 0⟩, ⟨0, 0, 1⟩, ⟨1, 0⟩, ⟨0, 0, 0, 0⟩⟩,
   ⟨⟨0, 1, 0⟩, ⟨0, 0, 1⟩, ⟨0, 1⟩, ⟨0, 0, 0, 0⟩⟩,
   ⟨⟨3, 3, 3⟩, ⟨0, 0, 1⟩, ⟨0, 0⟩, ⟨0, 0, 0, 0⟩⟩]

/-- Three vertices with differing normals (a smooth-shaded triangle). -/
def demoVsSmooth : List VertexPositionNormalTextureTangent :=
  [⟨⟨0, 0, 0⟩, ⟨0, 0, 1⟩, ⟨0, 0⟩, ⟨0, 0, 0, 0⟩⟩,
   ⟨⟨1, 0, 0⟩, ⟨1, 0, 0⟩, ⟨1, 0⟩, ⟨0, 0, 0, 0⟩⟩,
   ⟨⟨0, 1, 0⟩, ⟨0, 1, 0⟩, ⟨0, 1⟩, ⟨0, 0, 0, 0⟩⟩]

/-- Three vertices whose texture coordinates coincide (degenerate UV
mapping, `denom = 0`). -/
def demoVsDegen : List VertexPositionNormalTextureTangent :=
  [⟨⟨0, 0, 0⟩, ⟨0, 0, 1⟩, ⟨0, 0⟩, ⟨0, 0, 0, 0⟩⟩,
   ⟨⟨1, 0, 0⟩, ⟨0, 0, 1⟩, ⟨0, 0⟩, ⟨0, 0, 0, 0⟩⟩,
   ⟨⟨0, 1, 0⟩, ⟨0, 0, 1⟩, ⟨0, 0⟩, ⟨0, 0, 0, 0⟩⟩]

/-- Zeroed accumulators for three vertices. -/
def demoAcc : TBAccum :=
  ⟨List.replicate 3 ⟨0, 0, 0⟩, List.replicate 3 ⟨0, 0, 0⟩⟩

/-- A scene with one submesh of two triangles sharing an edge: corners
(0,1,2) and (1,2,3) over four positions — six corner occurrences, four
distinct composite keys. -/
def demoObject : Object :=
  { mtllib := "demo.mtl"
    positions := [⟨0, 0, 0⟩, ⟨1, 0, 0⟩, ⟨0, 1, 0⟩, ⟨1, 1, 0⟩]
    normals := []
    texcoords := []
    meshes := [⟨[⟨"m", [⟨⟨0, -1, -1⟩, ⟨1, -1, -1⟩, ⟨2, -1, -1⟩⟩,
                        ⟨⟨1, -1, -1⟩, ⟨2, -1, -1⟩, ⟨3, -1, -1⟩⟩]⟩]⟩] }

/-- The material table for the demo scene. -/
def demoMatMap : List (String × Nat) := [("m", 0)]

/-- The buffers `CreateBufferData` builds for the demo scene. -/
def demoBuf : BufState :=
  (CreateBufferData idq demoObject demoMatMap).toOption.getD ⟨[], [], [], []⟩

end ObjToImdl

namespace ObjToImdl

-- ---------------------------------------------------------------- --
-- Theorems for claims C2, C3, C8
-- ---------------------------------------------------------------- --

/-- C2: a face-line component literal `n` resolved against an array of
current length `L` resolves to `n - 1` when `n > 0`, to `L + n` when
`n < 0` (so `-1` resolves to the last-appended element, index `L - 1`),
and is a zero-index error when `n = 0` — never a silent success. -/
theorem fixIndex_resolution (n L : Int) :
    (0 < n → fixIndex n L = .ok (n - 1)) ∧
    (n < 0 → fixIndex n L = .ok (L + n) ∧ (n = -1 → fixIndex n L = .ok (L - 1))) ∧
    (n = 0 → fixIndex n L = .error .zeroIndex) := by
  refine ⟨fun h => ?_, fun h => ⟨?_, fun hn => ?_⟩, fun h => ?_⟩
  · simp [fixIndex, h]
  · simp [fixIndex, h, not_lt_of_gt h, lt_asymm h]
  · subst hn; simp [fixIndex]; ring
  · subst h; simp [fixIndex]

/-- Witness for C2 at concrete inputs: length 10, literals 5, -1 and 0. -/
theorem fixIndex_resolution_witness :
    fixIndex 5 10 = .ok 4 ∧ fixIndex (-1) 10 = .ok 9 ∧
    fixIndex 0 10 = .error .zeroIndex :=
  ⟨(fixIndex_resolution 5 10).1 (by decide),
   by have h := ((fixIndex_resolution (-1) 10).2.1 (by decide)).2 rfl
      simpa using h,
   (fixIndex_resolution 0 10).2.2 rfl⟩

/-- C3: a face line with `k ≥ 3` corners fan-triangulates into exactly
`k - 2` triangles, the `i`-th being (corner 0, corner `i+1`, corner `i+2`)
of the corner list in input order. -/
theorem fanTriangles_spec (result : List FaceIndex) (h : 3 ≤ result.length) :
    (fanTriangles result).length = result.length - 2 ∧
    (∀ i, i < result.length - 2 →
      (fanTriangles result).getD i default =
        ⟨result.getD 0 default, result.getD (i + 1) default, result.getD (i + 2) default⟩) := by
  constructor
  · simp [fanTriangles]
  · intro i hi
    simp [fanTriangles, List.getD_eq_getElem?_getD, List.getElem?_map,
      List.getElem?_range, hi]

/-- Witness for C3: a 4-corner face yields exactly the two triangles
(0,1,2) and (0,2,3) of the corner list. -/
theorem fanTriangles_spec_witness :
    (fanTriangles [⟨1, -1, -1⟩, ⟨2, -1, -1⟩, ⟨3, -1, -1⟩, ⟨4, -1, -1⟩]).length = 2 ∧
    (∀ i, i < 2 →
      (fanTriangles [⟨1, -1, -1⟩, ⟨2, -1, -1⟩, ⟨3, -1, -1⟩, ⟨4, -1, -1⟩]).getD i default =
        ⟨[(⟨1, -1, -1⟩ : FaceIndex), ⟨2, -1, -1⟩, ⟨3, -1, -1⟩, ⟨4, -1, -1⟩].getD 0 default,
         [(⟨1, -1, -1⟩ : FaceIndex), ⟨2, -1, -1⟩, ⟨3, -1, -1⟩, ⟨4, -1, -1⟩].getD (i + 1) default,
         [(⟨1, -1, -1⟩ : FaceIndex), ⟨2, -1, -1⟩, ⟨3, -1, -1⟩, ⟨4, -1, -1⟩].getD (i + 2) default⟩) :=
  fanTriangles_spec [⟨1, -1, -1⟩, ⟨2, -1, -1⟩, ⟨3, -1, -1⟩, ⟨4, -1, -1⟩] (by decide)

/-- C8: a face line while `pFace` is null fails with the
"no material assigned" condition carrying the current object name.  In
the embedding the error is raised before the face line touches any part
of the state, mirroring the early `return 1` in the source, so no buffer
is mutated. -/
theorem faceLine_noMaterial (st : ObjState) (tokens : List FaceToken)
    (h : st.pFace = none) :
    analyzeObjStep st (.f tokens) = .error (.noMaterialAssigned st.objectName) := by
  simp [analyzeObjStep, h]

/-- Witness for C8: the very first line being a face line fails with the
"no material assigned" error naming the (empty) current object name. -/
theorem faceLine_noMaterial_witness :
    analyzeObjStep objInitState (.f [⟨1, none, none⟩]) =
      .error (.noMaterialAssigned "") :=
  faceLine_noMaterial objInitState [⟨1, none, none⟩] rfl

-- ---------------------------------------------------------------- --
-- Byte-level lemmas for the chunk container (C5, C7)
-- ---------------------------------------------------------------- --

theorem le32_length (n : Nat) : (le32 n).length = 4 := rfl

theorem decodeLE32_le32 (n : Nat) : decodeLE32 (le32 n) = n % U32 := by
  simp [decodeLE32, le32, U32]
  omega

theorem readBytes_append {n : Nat} (a b : List Nat) (h : a.length = n) :
    readBytes n (a ++ b) = some (a, b) := by
  have hle : n ≤ a.length + b.length := by omega
  simp [readBytes, hle, List.take_left' h, List.drop_left' h]

theorem readBytes_short {n : Nat} (s : List Nat) (h : s.length < n) :
    readBytes n s = none := by
  simp [readBytes]; omega

theorem headerBytes_take (tag sz : Nat) :
    (le32 tag ++ le32 sz).take 4 = le32 tag :=
  List.take_left' (le32_length tag)

theorem headerBytes_drop (tag sz : Nat) :
    (le32 tag ++ le32 sz).drop 4 = le32 sz :=
  List.drop_left' (le32_length tag)

/-- Reading an encoded chunk consumes exactly the header and payload and
reproduces the header fields. -/
theorem ReadChunk_encoded (tag : Nat) (p s : List Nat)
    (htag : tag < U32) (hL : p.length < U32) :
    ReadChunk (WriteChunk tag p ++ s) = some (⟨tag, p.length⟩, p, s) := by
  have hshape : WriteChunk tag p ++ s = (le32 tag ++ le32 p.length) ++ (p ++ s) := by
    simp [WriteChunk]
  have h8 : (le32 tag ++ le32 p.length).length = 8 := by simp [le32_length]
  rw [hshape]
  unfold ReadChunk
  rw [readBytes_append _ _ h8]
  dsimp only
  rw [headerBytes_take, headerBytes_drop, decodeLE32_le32, decodeLE32_le32,
    Nat.mod_eq_of_lt htag, Nat.mod_eq_of_lt hL]
  rw [readBytes_append _ _ rfl]

/-- A strict truncation of an encoded chunk makes `ReadChunk` fail. -/
theorem ReadChunk_truncated (tag : Nat) (p t r : List Nat)
    (hL : p.length < U32) (happ : t ++ r = WriteChunk tag p)
    (hlt : t.length < 8 + p.length) :
    ReadChunk t = none := by
  by_cases h8 : t.length < 8
  · unfold ReadChunk
    rw [readBytes_short t h8]
  · push_neg at h8
    have hshape : WriteChunk tag p = (le32 tag ++ le32 p.length) ++ p := by
      simp [WriteChunk]
    have hlen8 : (le32 tag ++ le32 p.length).length = 8 := by simp [le32_length]
    have htake : t.take 8 = le32 tag ++ le32 p.length := by
      have h1 : (t ++ r).take 8 = t.take 8 := List.take_append_of_le_length h8
      have h2 : (t ++ r).take 8 = le32 tag ++ le32 p.length := by
        rw [happ, hshape, List.take_left' hlen8]
      rw [← h1, h2]
    have hdroplen : (t.drop 8).length < p.length := by
      simp only [List.length_drop]
      omega
    unfold ReadChunk
    have hrb : readBytes 8 t = some (t.take 8, t.drop 8) := by
      simp [readBytes, h8]
    rw [hrb]
    dsimp only
    rw [htake, headerBytes_take, headerBytes_drop, decodeLE32_le32,
      Nat.mod_eq_of_lt hL, readBytes_short _ hdroplen]

/-- Reading `cs.length` encoded chunks succeeds and consumes them
exactly. -/
theorem readChunks_encoded : ∀ (cs : List (Nat × List Nat)) (s : List Nat),
    (∀ c ∈ cs, c.1 < U32 ∧ c.2.length < U32) →
    readChunks cs.length (encodeChunkList cs ++ s) =
      some (cs.map fun c => (⟨c.1, c.2.length⟩, c.2), s) := by
  intro cs
  induction cs with
  | nil =>
    intro s hwf
    simp [readChunks, encodeChunkList]
  | cons c cs ih =>
    intro s hwf
    have hc := hwf c (by simp)
    have hshape : encodeChunkList (c :: cs) ++ s =
        WriteChunk c.1 c.2 ++ (encodeChunkList cs ++ s) := by
      simp [encodeChunkList]
    rw [List.length_cons, hshape]
    unfold readChunks
    rw [ReadChunk_encoded c.1 c.2 _ hc.1 hc.2]
    dsimp only
    rw [ih s (fun d hd => hwf d (by simp [hd]))]
    rfl

/-- A strict truncation of a concatenation of encoded chunks makes
`readChunks` fail. -/
theorem readChunks_truncated : ∀ (cs : List (Nat × List Nat)) (t r : List Nat),
    (∀ c ∈ cs, c.1 < U32 ∧ c.2.length < U32) →
    t ++ r = encodeChunkList cs → r ≠ [] →
    readChunks cs.length t = none := by
  intro cs
  induction cs with
  | nil =>
    intro t r hwf happ hne
    exfalso
    apply hne
    have : t ++ r = [] := by simpa [encodeChunkList] using happ
    exact (List.append_eq_nil.mp this).2
  | cons c cs ih =>
    intro t r hwf happ hne
    have hc := hwf c (by simp)
    have hshape : encodeChunkList (c :: cs) =
        WriteChunk c.1 c.2 ++ encodeChunkList cs := by
      simp [encodeChunkList]
    have hchunklen : (WriteChunk c.1 c.2).length = 8 + c.2.length := by
      simp [WriteChunk, le32_length]
      omega
    by_cases hsplit : t.length < 8 + c.2.length
    · -- the cut falls inside the first chunk
      have htle : t.length ≤ (WriteChunk c.1 c.2).length := by omega
      have htpre : t = (WriteChunk c.1 c.2).take t.length := by
        have h1 : (t ++ r).take t.length = t := by
          rw [List.take_append_of_le_length (le_refl _), List.take_length]
        have h2 : (t ++ r).take t.length =
            (WriteChunk c.1 c.2).take t.length := by
          rw [happ, hshape, List.take_append_of_le_length htle]
        exact h1.symm.trans h2
      have happ' : t ++ (WriteChunk c.1 c.2).drop t.length = WriteChunk c.1 c.2 := by
        have h3 := List.take_append_drop t.length (WriteChunk c.1 c.2)
        rw [← htpre] at h3
        exact h3
      have hrc : ReadChunk t = none :=
        ReadChunk_truncated c.1 c.2 t _ hc.2 happ' hsplit
      rw [List.length_cons]
      unfold readChunks
      rw [hrc]
    · -- the first chunk is intact; recurse on the tail
      push_neg at hsplit
      have htge : (WriteChunk c.1 c.2).length ≤ t.length := by omega
      have hsplit' : WriteChunk c.1 c.2 = t.take (WriteChunk c.1 c.2).length := by
        have h1 : (t ++ r).take (WriteChunk c.1 c.2).length =
            t.take (WriteChunk c.1 c.2).length :=
          List.take_append_of_le_length htge
        have h2 : (t ++ r).take (WriteChunk c.1 c.2).length = WriteChunk c.1 c.2 := by
          rw [happ, hshape, List.take_left]
        exact h2.symm.trans h1
      have hteq : t = WriteChunk c.1 c.2 ++ t.drop (WriteChunk c.1 c.2).length := by
        have h3 := List.take_append_drop (WriteChunk c.1 c.2).length t
        rw [← hsplit'] at h3
        exact h3.symm
      have hrest : t.drop (WriteChunk c.1 c.2).length ++ r = encodeChunkList cs := by
        have h1 : (t ++ r).drop (WriteChunk c.1 c.2).length =
            t.drop (WriteChunk c.1 c.2).length ++ r :=
          List.drop_append_of_le_length htge
        have h2 : (t ++ r).drop (WriteChunk c.1 c.2).length = encodeChunkList cs := by
          rw [happ, hshape, List.drop_left]
        exact h1.symm.trans h2
      rw [List.length_cons]
      unfold readChunks
      conv_lhs => rw [hteq]
      rw [ReadChunk_encoded c.1 c.2 _ hc.1 hc.2]
      dsimp only
      rw [ih _ r (fun d hd => hwf d (by simp [hd])) hrest hne]

theorem fileHeader_take4 (a b c : Nat) :
    (le32 a ++ (le32 b ++ le32 c)).take 4 = le32 a :=
  List.take_left' (le32_length a)

theorem fileHeader_drop4take4 (a b c : Nat) :
    ((le32 a ++ (le32 b ++ le32 c)).drop 4).take 4 = le32 b := by
  rw [List.drop_left' (le32_length a), List.take_left' (le32_length b)]

theorem fileHeader_drop8 (a b c : Nat) :
    (le32 a ++ (le32 b ++ le32 c)).drop 8 = le32 c := by
  rw [← List.append_assoc]
  exact List.drop_left' (by simp [le32_length])

/-- The container body after the 12-byte header is the concatenation of
the five encoded chunks. -/
theorem outputImdl_shape (floatBytes : ℚ → List Nat)
    (materials : List MaterialInfo) (meshInfo : List MeshInfo)
    (textures : List TextureEntry)
    (vertexBuffer : List VertexPositionNormalTextureTangent)
    (indexBuffer : List Nat) :
    OutputImdl floatBytes materials meshInfo textures vertexBuffer indexBuffer =
      (le32 IMDL_MAGIC ++ (le32 1 ++ le32 5)) ++
        encodeChunkList
          [(CHUNK_TEXTURE, BuildTextureChunk textures),
           (CHUNK_MATERIAL, BuildMaterialChunk floatBytes materials),
           (CHUNK_MESH, BuildMeshChunk meshInfo),
           (CHUNK_VERTEX, BuildVertexChunk floatBytes vertexBuffer),
           (CHUNK_INDEX, BuildIndexChunk indexBuffer)] := by
  simp [OutputImdl, encodeChunkList, List.append_assoc]

/-- Decoding a well-formed header-plus-chunks byte stream succeeds and
returns the header fields and the (tag, payload) pairs. -/
theorem readContainer_encoded (n : Nat) (cs : List (Nat × List Nat))
    (hwf : ∀ c ∈ cs, c.1 < U32 ∧ c.2.length < U32)
    (hn : n = cs.length) (hnlt : n < U32) :
    readContainer ((le32 IMDL_MAGIC ++ (le32 1 ++ le32 n)) ++ encodeChunkList cs) =
      some (⟨IMDL_MAGIC, 1, n⟩, cs.map fun c => (⟨c.1, c.2.length⟩, c.2)) := by
  unfold readContainer
  rw [readBytes_append _ _ (by simp [le32_length])]
  dsimp only
  rw [fileHeader_take4, fileHeader_drop4take4, fileHeader_drop8,
    decodeLE32_le32, decodeLE32_le32, decodeLE32_le32]
  have hmagic : IMDL_MAGIC % U32 = IMDL_MAGIC := by decide
  have h1mod : 1 % U32 = 1 := by decide
  rw [hmagic, h1mod, Nat.mod_eq_of_lt hnlt, if_pos rfl]
  have henc := readChunks_encoded cs [] hwf
  rw [List.append_nil] at henc
  rw [hn, henc]

/-- Decoding a strict truncation of a well-formed header-plus-chunks byte
stream fails. -/
theorem readContainer_truncated_gen (n : Nat) (cs : List (Nat × List Nat))
    (t r : List Nat)
    (hwf : ∀ c ∈ cs, c.1 < U32 ∧ c.2.length < U32)
    (hn : n = cs.length) (hnlt : n < U32)
    (happ : t ++ r = (le32 IMDL_MAGIC ++ (le32 1 ++ le32 n)) ++ encodeChunkList cs)
    (hne : r ≠ []) :
    readContainer t = none := by
  have hhdrlen : (le32 IMDL_MAGIC ++ (le32 1 ++ le32 n)).length = 12 := by
    simp [le32_length]
  by_cases h12 : t.length < 12
  · unfold readContainer
    rw [readBytes_short t h12]
  · push_neg at h12
    have htge : (le32 IMDL_MAGIC ++ (le32 1 ++ le32 n)).length ≤ t.length := by omega
    have hsplit' : le32 IMDL_MAGIC ++ (le32 1 ++ le32 n) =
        t.take (le32 IMDL_MAGIC ++ (le32 1 ++ le32 n)).length := by
      have ha : (t ++ r).take (le32 IMDL_MAGIC ++ (le32 1 ++ le32 n)).length =
          t.take (le32 IMDL_MAGIC ++ (le32 1 ++ le32 n)).length :=
        List.take_append_of_le_length htge
      have hb : (t ++ r).take (le32 IMDL_MAGIC ++ (le32 1 ++ le32 n)).length =
          le32 IMDL_MAGIC ++ (le32 1 ++ le32 n) := by
        rw [happ, List.take_left]
      exact hb.symm.trans ha
    have hteq : t = (le32 IMDL_MAGIC ++ (le32 1 ++ le32 n)) ++
        t.drop (le32 IMDL_MAGIC ++ (le32 1 ++ le32 n)).length := by
      have h3' := List.take_append_drop (le32 IMDL_MAGIC ++ (le32 1 ++ le32 n)).length t
      rw [← hsplit'] at h3'
      exact h3'.symm
    have hrest : t.drop (le32 IMDL_MAGIC ++ (le32 1 ++ le32 n)).length ++ r =
        encodeChunkList cs := by
      have ha : (t ++ r).drop (le32 IMDL_MAGIC ++ (le32 1 ++ le32 n)).length =
          t.drop (le32 IMDL_MAGIC ++ (le32 1 ++ le32 n)).length ++ r :=
        List.drop_append_of_le_length htge
      have hb : (t ++ r).drop (le32 IMDL_MAGIC ++ (le32 1 ++ le32 n)).length =
          encodeChunkList cs := by
        rw [happ, List.drop_left]
      exact ha.symm.trans hb
    have htrunc := readChunks_truncated cs
      (t.drop (le32 IMDL_MAGIC ++ (le32 1 ++ le32 n)).length) r hwf hrest hne
    unfold readContainer
    conv_lhs => rw [hteq]
    rw [readBytes_append _ _ hhdrlen]
    dsimp only
    rw [fileHeader_take4, fileHeader_drop4take4, fileHeader_drop8,
      decodeLE32_le32, decodeLE32_le32, decodeLE32_le32]
    have hmagic : IMDL_MAGIC % U32 = IMDL_MAGIC := by decide
    rw [hn] at htrunc
    rw [hmagic, Nat.mod_eq_of_lt hnlt, if_pos rfl, hn, htrunc]

/-- C5: every emitted container begins with a `FileHeader` whose magic is
the ASCII tag "IMDL" read as a big-endian four-character code (`fourCC 73
77 68 76`, the codes of I, M, D, L), whose version is 1 and whose
chunkCount is 5, followed by exactly five chunks in the fixed order
TEXTURE, MATERIAL, MESH, VERTEX, INDEX, each a uint32 type tag, a uint32
payload length equal to the actual payload byte count, and exactly that
many payload bytes — stated through the chunk reader: decoding the
emitted byte stream succeeds and returns precisely these header fields
and (tag, payload) pairs. -/
theorem outputImdl_layout (floatBytes : ℚ → List Nat)
    (materials : List MaterialInfo) (meshInfo : List MeshInfo)
    (textures : List TextureEntry)
    (vertexBuffer : List VertexPositionNormalTextureTangent)
    (indexBuffer : List Nat)
    (h1 : (BuildTextureChunk textures).length < U32)
    (h2 : (BuildMaterialChunk floatBytes materials).length < U32)
    (h3 : (BuildMeshChunk meshInfo).length < U32)
    (h4 : (BuildVertexChunk floatBytes vertexBuffer).length < U32)
    (h5 : (BuildIndexChunk indexBuffer).length < U32) :
    readContainer (OutputImdl floatBytes materials meshInfo textures vertexBuffer indexBuffer) =
      some (⟨fourCC 73 77 68 76, 1, 5⟩,
        [(⟨CHUNK_TEXTURE, (BuildTextureChunk textures).length⟩,
            BuildTextureChunk textures),
         (⟨CHUNK_MATERIAL, (BuildMaterialChunk floatBytes materials).length⟩,
            BuildMaterialChunk floatBytes materials),
         (⟨CHUNK_MESH, (BuildMeshChunk meshInfo).length⟩,
            BuildMeshChunk meshInfo),
         (⟨CHUNK_VERTEX, (BuildVertexChunk floatBytes vertexBuffer).length⟩,
            BuildVertexChunk floatBytes vertexBuffer),
         (⟨CHUNK_INDEX, (BuildIndexChunk indexBuffer).length⟩,
            BuildIndexChunk indexBuffer)]) := by
  have hwf : ∀ c ∈ [(CHUNK_TEXTURE, BuildTextureChunk textures),
      (CHUNK_MATERIAL, BuildMaterialChunk floatBytes materials),
      (CHUNK_MESH, BuildMeshChunk meshInfo),
      (CHUNK_VERTEX, BuildVertexChunk floatBytes vertexBuffer),
      (CHUNK_INDEX, BuildIndexChunk indexBuffer)], c.1 < U32 ∧ c.2.length < U32 := by
    intro c hc
    simp only [List.mem_cons, List.not_mem_nil, or_false] at hc
    rcases hc with rfl | rfl | rfl | rfl | rfl
    · exact ⟨show CHUNK_TEXTURE < U32 by decide, h1⟩
    · exact ⟨show CHUNK_MATERIAL < U32 by decide, h2⟩
    · exact ⟨show CHUNK_MESH < U32 by decide, h3⟩
    · exact ⟨show CHUNK_VERTEX < U32 by decide, h4⟩
    · exact ⟨show CHUNK_INDEX < U32 by decide, h5⟩
  rw [outputImdl_shape]
  exact readContainer_encoded 5
    [(CHUNK_TEXTURE, BuildTextureChunk textures),
     (CHUNK_MATERIAL, BuildMaterialChunk floatBytes materials),
     (CHUNK_MESH, BuildMeshChunk meshInfo),
     (CHUNK_VERTEX, BuildVertexChunk floatBytes vertexBuffer),
     (CHUNK_INDEX, BuildIndexChunk indexBuffer)] hwf rfl (by decide)

/-- Witness for C5 at concrete (empty) record sets and a concrete float
serializer. -/
theorem outputImdl_layout_witness :
    readContainer (OutputImdl floatBytes0 [] [] [] [] []) =
      some (⟨fourCC 73 77 68 76, 1, 5⟩,
        [(⟨CHUNK_TEXTURE, (BuildTextureChunk []).length⟩, BuildTextureChunk []),
         (⟨CHUNK_MATERIAL, (BuildMaterialChunk floatBytes0 []).length⟩,
            BuildMaterialChunk floatBytes0 []),
         (⟨CHUNK_MESH, (BuildMeshChunk []).length⟩, BuildMeshChunk []),
         (⟨CHUNK_VERTEX, (BuildVertexChunk floatBytes0 []).length⟩,
            BuildVertexChunk floatBytes0 []),
         (⟨CHUNK_INDEX, (BuildIndexChunk []).length⟩, BuildIndexChunk [])]) :=
  outputImdl_layout floatBytes0 [] [] [] [] []
    (by decide) (by decide) (by decide) (by decide) (by decide)

/-- C7: truncating an emitted container by any amount (leaving fewer
bytes than a declared length demands) makes decoding fail as a whole,
fatally: `readContainer` returns `none` and never a partially-populated
record set.  The short read is detected by `ReadChunk` (or by the header
read) and propagates. -/
theorem readContainer_outputImdl_truncated (floatBytes : ℚ → List Nat)
    (materials : List MaterialInfo) (meshInfo : List MeshInfo)
    (textures : List TextureEntry)
    (vertexBuffer : List VertexPositionNormalTextureTangent)
    (indexBuffer : List Nat)
    (h1 : (BuildTextureChunk textures).length < U32)
    (h2 : (BuildMaterialChunk floatBytes materials).length < U32)
    (h3 : (BuildMeshChunk meshInfo).length < U32)
    (h4 : (BuildVertexChunk floatBytes vertexBuffer).length < U32)
    (h5 : (BuildIndexChunk indexBuffer).length < U32)
    (t r : List Nat)
    (happ : t ++ r = OutputImdl floatBytes materials meshInfo textures vertexBuffer indexBuffer)
    (hne : r ≠ []) :
    readContainer t = none := by
  have hwf : ∀ c ∈ [(CHUNK_TEXTURE, BuildTextureChunk textures),
      (CHUNK_MATERIAL, BuildMaterialChunk floatBytes materials),
      (CHUNK_MESH, BuildMeshChunk meshInfo),
      (CHUNK_VERTEX, BuildVertexChunk floatBytes vertexBuffer),
      (CHUNK_INDEX, BuildIndexChunk indexBuffer)], c.1 < U32 ∧ c.2.length < U32 := by
    intro c hc
    simp only [List.mem_cons, List.not_mem_nil, or_false] at hc
    rcases hc with rfl | rfl | rfl | rfl | rfl
    · exact ⟨show CHUNK_TEXTURE < U32 by decide, h1⟩
    · exact ⟨show CHUNK_MATERIAL < U32 by decide, h2⟩
    · exact ⟨show CHUNK_MESH < U32 by decide, h3⟩
    · exact ⟨show CHUNK_VERTEX < U32 by decide, h4⟩
    · exact ⟨show CHUNK_INDEX < U32 by decide, h5⟩
  rw [outputImdl_shape] at happ
  exact readContainer_truncated_gen 5
    [(CHUNK_TEXTURE, BuildTextureChunk textures),
     (CHUNK_MATERIAL, BuildMaterialChunk floatBytes materials),
     (CHUNK_MESH, BuildMeshChunk meshInfo),
     (CHUNK_VERTEX, BuildVertexChunk floatBytes vertexBuffer),
     (CHUNK_INDEX, BuildIndexChunk indexBuffer)] t r hwf rfl (by decide) happ hne

/-- Witness for C7: the concrete 72-byte container for empty record sets,
truncated by one byte, fails to decode. -/
theorem readContainer_outputImdl_truncated_witness :
    readContainer ((OutputImdl floatBytes0 [] [] [] [] []).take 71) = none :=
  readContainer_outputImdl_truncated floatBytes0 [] [] [] [] []
    (by decide) (by decide) (by decide) (by decide) (by decide)
    ((OutputImdl floatBytes0 [] [] [] [] []).take 71)
    ((OutputImdl floatBytes0 [] [] [] [] []).drop 71)
    (List.take_append_drop 71 _) (by decide)

-- ---------------------------------------------------------------- --
-- Theorems for claim C6 (texture registration in AnalyzeMtl)
-- ---------------------------------------------------------------- --

/-- C6 counterexample: with a codec that decodes "a.png" but fails on
"b.png" (both files present), the sequence newmtl, map_Kd a.png,
map_Kd b.png parses successfully: the codec failure on the second line
does not fail the conversion — `RegisterTexture`'s -1 is stored as the
material's (absent) base-color slot, overwriting the previously assigned
slot 0.  This refutes the claim that a codec failure fails the whole
conversion and is never downgraded to an absent texture slot. -/
theorem mapKd_codecFailure_counterexample :
    codecOnlyA "b.png" TextureType.BaseColor = none ∧
    AnalyzeMtl idq existsAlways codecOnlyA "dir"
        [.newmtl "m", .map_Kd "a.png", .map_Kd "b.png"] =
      .ok ⟨[{ baseColorTexIndex := -1 }], [("m", 0)],
           [⟨.BaseColor, [7]⟩], [(("a.png", .BaseColor), 0)], 1⟩ :=
  ⟨by decide, by rfl⟩

/-- C6 (amended): for a `map_Kd` or `map_Bump` line with a declared
material and a nonempty extracted filename: the path resolves to the
filename as given when that file exists, else to the file next to the
.mtl file when that exists; when neither exists, the whole conversion
fails with a texture-not-found error; for any resolved path (either way)
the slot index returned by `RegisterTexture` — whatever its value — is
stored on the current material and parsing continues; and on a codec
failure (with no memoized entry) `RegisterTexture` returns -1 and leaves
the texture tables untouched, so the failure is silently downgraded to
the absent slot -1 rather than failing the conversion. -/
theorem mapTexture_registration (sqrtQ : ℚ → ℚ) (ex : String → Bool)
    (codec : String → TextureType → Option (List Nat)) (mtlDir : String)
    (st : MtlState) (name : String) :
    (ex name = true → resolveTexturePath ex mtlDir name = some name) ∧
    (ex name = false → ex (mtlDir ++ "/" ++ name) = true →
      resolveTexturePath ex mtlDir name = some (mtlDir ++ "/" ++ name)) ∧
    (st.materials ≠ [] → name ≠ "" → ex name = false →
      ex (mtlDir ++ "/" ++ name) = false →
      analyzeMtlStep sqrtQ ex codec mtlDir st (.map_Kd name) =
          .error (.textureNotFound (mtlDir ++ "/" ++ name)) ∧
        analyzeMtlStep sqrtQ ex codec mtlDir st (.map_Bump name) =
          .error (.textureNotFound (mtlDir ++ "/" ++ name))) ∧
    (∀ p, st.materials ≠ [] → name ≠ "" →
      resolveTexturePath ex mtlDir name = some p →
      analyzeMtlStep sqrtQ ex codec mtlDir st (.map_Kd name) =
          .ok { st with
                materials := setBack st.materials fun m =>
                  { m with baseColorTexIndex :=
                      (RegisterTexture codec p .BaseColor st.textures st.textureIndexMap).1 }
                textures :=
                  (RegisterTexture codec p .BaseColor st.textures st.textureIndexMap).2.1
                textureIndexMap :=
                  (RegisterTexture codec p .BaseColor st.textures st.textureIndexMap).2.2 } ∧
        analyzeMtlStep sqrtQ ex codec mtlDir st (.map_Bump name) =
          .ok { st with
                materials := setBack st.materials fun m =>
                  { m with normalTexIndex :=
                      (RegisterTexture codec p .Normal st.textures st.textureIndexMap).1 }
                textures :=
                  (RegisterTexture codec p .Normal st.textures st.textureIndexMap).2.1
                textureIndexMap :=
                  (RegisterTexture codec p .Normal st.textures st.textureIndexMap).2.2 }) ∧
    (∀ path ty textures tmap, findAssoc tmap (path, ty) = none →
      codec path ty = none →
      RegisterTexture codec path ty textures tmap = (-1, textures, tmap)) := by
  refine ⟨fun h => ?_, fun h3 h4 => ?_, fun h1 h2 h3 h4 => ?_,
    fun p h1 h2 hres => ?_, fun path ty textures tmap hf hc => ?_⟩
  · simp [resolveTexturePath, h]
  · simp [resolveTexturePath, h3, h4]
  · constructor <;>
      simp [analyzeMtlStep, resolveTexturePath, h1, h2, h3, h4]
  · constructor <;>
      simp [analyzeMtlStep, h1, h2, hres]
  · simp [RegisterTexture, hf, hc]

/-- Witness for C6 (amended) at concrete inputs: the path resolves as
given when that file exists and via the .mtl-directory fallback
otherwise; a file found nowhere fails the conversion; for a path
resolved through the fallback the index `RegisterTexture` returns is
stored; and a failing codec makes `RegisterTexture` return -1. -/
theorem mapTexture_registration_witness :
    (resolveTexturePath existsAlways "dir" "t.png" = some "t.png") ∧
    (resolveTexturePath existsOnlyInDir "dir" "t.png" = some "dir/t.png") ∧
    (analyzeMtlStep idq existsNever codecNone "dir" demoMtlState (.map_Kd "t.png") =
        .error (.textureNotFound "dir/t.png")) ∧
    (analyzeMtlStep idq existsOnlyInDir codecNone "dir" demoMtlState (.map_Kd "t.png") =
        .ok { demoMtlState with
              materials := setBack demoMtlState.materials fun m =>
                { m with baseColorTexIndex :=
                    (RegisterTexture codecNone "dir/t.png" .BaseColor
                      demoMtlState.textures demoMtlState.textureIndexMap).1 }
              textures :=
                (RegisterTexture codecNone "dir/t.png" .BaseColor
                  demoMtlState.textures demoMtlState.textureIndexMap).2.1
              textureIndexMap :=
                (RegisterTexture codecNone "dir/t.png" .BaseColor
                  demoMtlState.textures demoMtlState.textureIndexMap).2.2 }) ∧
    (RegisterTexture codecNone "t.png" .BaseColor [] [] = (-1, [], [])) :=
  ⟨(mapTexture_registration idq existsAlways codecNone "dir" demoMtlState "t.png").1 rfl,
   (mapTexture_registration idq existsOnlyInDir codecNone "dir" demoMtlState "t.png").2.1
      (by decide) (by decide),
   ((mapTexture_registration idq existsNever codecNone "dir" demoMtlState "t.png").2.2.1
      (by decide) (by decide) rfl rfl).1,
   ((mapTexture_registration idq existsOnlyInDir codecNone "dir" demoMtlState "t.png").2.2.2.1
      "dir/t.png" (by decide) (by decide) (by decide)).1,
   (mapTexture_registration idq existsAlways codecNone "dir" demoMtlState "t.png").2.2.2.2
      "t.png" TextureType.BaseColor [] [] rfl rfl⟩

-- ---------------------------------------------------------------- --
-- Theorems for claims C4 and C10 (GenerateTangents)
-- ---------------------------------------------------------------- --

/-- C4: in tangent generation, for every triangle (i0,i1,i2): the flat
test is exactly "n0·n1 > 0.999 and n1·n2 > 0.999" on the vertex normals;
if `|du1*dv2 - du2*dv1| < 1e-6` the triangle contributes nothing to any
accumulator; otherwise a flat triangle overwrites the accumulators at
all three of its vertices (discarding prior contributions) and a
non-flat one adds its tangent/bitangent into them. -/
theorem tangentStep_classification
    (vertices : List VertexPositionNormalTextureTangent)
    (acc : TBAccum) (i0 i1 i2 : Nat) :
    (isFlatFace vertices i0 i1 i2 = true ↔
      (999 / 1000 < XMVector3Dot (vertices.getD i0 default).normal
          (vertices.getD i1 default).normal ∧
       999 / 1000 < XMVector3Dot (vertices.getD i1 default).normal
          (vertices.getD i2 default).normal)) ∧
    (|triDenom vertices i0 i1 i2| < 1 / 1000000 →
      tangentStep vertices acc (i0, i1, i2) = acc) ∧
    (¬ |triDenom vertices i0 i1 i2| < 1 / 1000000 →
      isFlatFace vertices i0 i1 i2 = true →
      tangentStep vertices acc (i0, i1, i2) =
        setTB (setTB (setTB acc i0 (triT vertices i0 i1 i2) (triB vertices i0 i1 i2))
            i1 (triT vertices i0 i1 i2) (triB vertices i0 i1 i2))
          i2 (triT vertices i0 i1 i2) (triB vertices i0 i1 i2)) ∧
    (¬ |triDenom vertices i0 i1 i2| < 1 / 1000000 →
      isFlatFace vertices i0 i1 i2 = false →
      tangentStep vertices acc (i0, i1, i2) =
        addTB (addTB (addTB acc i0 (triT vertices i0 i1 i2) (triB vertices i0 i1 i2))
            i1 (triT vertices i0 i1 i2) (triB vertices i0 i1 i2))
          i2 (triT vertices i0 i1 i2) (triB vertices i0 i1 i2)) := by
  refine ⟨?_, fun hd => ?_, fun hd hf => ?_, fun hd hf => ?_⟩
  · simp [isFlatFace]
  · unfold tangentStep
    dsimp only
    rw [if_pos hd]
  · unfold tangentStep
    dsimp only
    rw [if_neg hd, if_pos hf]
  · unfold tangentStep
    dsimp only
    rw [if_neg hd, if_neg (by simp [hf])]

/-- Witness for C4 at concrete triangles: a degenerate-UV triangle
contributes nothing; a flat triangle overwrites; a smooth one adds. -/
theorem tangentStep_classification_witness :
    (tangentStep demoVsDegen demoAcc (0, 1, 2) = demoAcc) ∧
    (tangentStep demoVsFlat demoAcc (0, 1, 2) =
      setTB (setTB (setTB demoAcc 0 (triT demoVsFlat 0 1 2) (triB demoVsFlat 0 1 2))
          1 (triT demoVsFlat 0 1 2) (triB demoVsFlat 0 1 2))
        2 (triT demoVsFlat 0 1 2) (triB demoVsFlat 0 1 2)) ∧
    (tangentStep demoVsSmooth demoAcc (0, 1, 2) =
      addTB (addTB (addTB demoAcc 0 (triT demoVsSmooth 0 1 2) (triB demoVsSmooth 0 1 2))
          1 (triT demoVsSmooth 0 1 2) (triB demoVsSmooth 0 1 2))
        2 (triT demoVsSmooth 0 1 2) (triB demoVsSmooth 0 1 2)) :=
  ⟨(tangentStep_classification demoVsDegen demoAcc 0 1 2).2.1
     (by norm_num [triDenom, demoVsDegen]),
   (tangentStep_classification demoVsFlat demoAcc 0 1 2).2.2.1
     (by norm_num [triDenom, demoVsFlat])
     (by norm_num [isFlatFace, demoVsFlat, XMVector3Dot]),
   (tangentStep_classification demoVsSmooth demoAcc 0 1 2).2.2.2
     (by norm_num [triDenom, demoVsSmooth])
     (by norm_num [isFlatFace, demoVsSmooth, XMVector3Dot])⟩

theorem tangentStep_untouched
    (vertices : List VertexPositionNormalTextureTangent)
    (acc : TBAccum) (tri : Nat × Nat × Nat) (i : Nat)
    (h0 : tri.1 ≠ i) (h1 : tri.2.1 ≠ i) (h2 : tri.2.2 ≠ i) :
    (tangentStep vertices acc tri).tanAccum.getD i ⟨0, 0, 0⟩ =
        acc.tanAccum.getD i ⟨0, 0, 0⟩ ∧
      (tangentStep vertices acc tri).bitanAccum.getD i ⟨0, 0, 0⟩ =
        acc.bitanAccum.getD i ⟨0, 0, 0⟩ := by
  unfold tangentStep
  dsimp only
  by_cases hd : |triDenom vertices tri.1 tri.2.1 tri.2.2| < 1 / 1000000
  · rw [if_pos hd]
    exact ⟨rfl, rfl⟩
  · rw [if_neg hd]
    by_cases hf : isFlatFace vertices tri.1 tri.2.1 tri.2.2 = true
    · rw [if_pos hf]
      constructor <;>
        simp [setTB, List.getD_eq_getElem?_getD, List.getElem?_set_ne, h0, h1, h2]
    · rw [if_neg hf]
      constructor <;>
        simp [addTB, List.getD_eq_getElem?_getD, List.getElem?_set_ne, h0, h1, h2]

theorem accumulate_untouched
    (vertices : List VertexPositionNormalTextureTangent) (i : Nat) :
    ∀ (tris : List (Nat × Nat × Nat)) (acc : TBAccum),
      (∀ tri ∈ tris, tri.1 ≠ i ∧ tri.2.1 ≠ i ∧ tri.2.2 ≠ i) →
      (tris.foldl (tangentStep vertices) acc).tanAccum.getD i ⟨0, 0, 0⟩ =
          acc.tanAccum.getD i ⟨0, 0, 0⟩ ∧
        (tris.foldl (tangentStep vertices) acc).bitanAccum.getD i ⟨0, 0, 0⟩ =
          acc.bitanAccum.getD i ⟨0, 0, 0⟩ := by
  intro tris
  induction tris with
  | nil => intro acc _; exact ⟨rfl, rfl⟩
  | cons tri tris ih =>
    intro acc h
    have htri := h tri (by simp)
    have hstep := tangentStep_untouched vertices acc tri i htri.1 htri.2.1 htri.2.2
    have hrest := ih (tangentStep vertices acc tri) (fun d hd => h d (by simp [hd]))
    rw [List.foldl_cons]
    exact ⟨hrest.1.trans hstep.1, hrest.2.trans hstep.2⟩

/-- C10: `GenerateTangents` writes only the tangent field: the output
vertex list has the same length, every output vertex equals the
corresponding input vertex with only its tangent field replaced (one
write per vertex by the final pass; position, normal, texcoord are
untouched, and the index buffer is never written — it is consumed
read-only), and the accumulators of a vertex referenced by no triangle
stay zero. -/
theorem generateTangents_frame (sqrtQ : ℚ → ℚ)
    (vertices : List VertexPositionNormalTextureTangent) (indices : List Nat) :
    (GenerateTangents sqrtQ vertices indices).length = vertices.length ∧
    (∀ i, (GenerateTangents sqrtQ vertices indices).getD i default =
      { vertices.getD i default with
        tangent := ((GenerateTangents sqrtQ vertices indices).getD i default).tangent }) ∧
    (∀ i, i < vertices.length →
      (∀ tri ∈ triangleList indices, tri.1 ≠ i ∧ tri.2.1 ≠ i ∧ tri.2.2 ≠ i) →
      (accumulateTangents vertices indices).tanAccum.getD i ⟨0, 0, 0⟩ = ⟨0, 0, 0⟩ ∧
      (accumulateTangents vertices indices).bitanAccum.getD i ⟨0, 0, 0⟩ = ⟨0, 0, 0⟩) := by
  refine ⟨by simp [GenerateTangents], fun i => ?_, fun i hi h => ?_⟩
  · by_cases hi : i < vertices.length
    · simp only [GenerateTangents, List.getD_eq_getElem?_getD, List.getElem?_map,
        List.getElem?_range, hi, Option.map_some, Option.getD_some]
      rfl
    · push_neg at hi
      have hnone : (List.range vertices.length)[i]? = none := by
        simp [List.getElem?_range]
        omega
      simp only [GenerateTangents, List.getD_eq_getElem?_getD, List.getElem?_map, hnone,
        Option.map, Option.getD_none]
      have : vertices[i]? = none := by
        rw [List.getElem?_eq_none_iff]
        omega
      simp [this]
  · have hacc := accumulate_untouched vertices i (triangleList indices)
      ⟨List.replicate vertices.length ⟨0, 0, 0⟩,
       List.replicate vertices.length ⟨0, 0, 0⟩⟩ h
    unfold accumulateTangents
    refine ⟨hacc.1.trans ?_, hacc.2.trans ?_⟩ <;>
      simp [List.getD_eq_getElem?_getD, List.getElem?_replicate, hi]

/-- Witness for C10: with one flat triangle over four vertices, the
fourth (unreferenced) vertex's accumulators stay zero. -/
theorem generateTangents_frame_witness :
    (accumulateTangents demoVsFlat [0, 1, 2]).tanAccum.getD 3 ⟨0, 0, 0⟩ = ⟨0, 0, 0⟩ ∧
    (accumulateTangents demoVsFlat [0, 1, 2]).bitanAccum.getD 3 ⟨0, 0, 0⟩ = ⟨0, 0, 0⟩ :=
  (generateTangents_frame idq demoVsFlat [0, 1, 2]).2.2 3 (by decide) (by decide)

-- ---------------------------------------------------------------- --
-- Lemmas about findAssoc and Except bind
-- ---------------------------------------------------------------- --

theorem findAssoc_eq_none {α β : Type} [DecidableEq α] (m : List (α × β)) (k : α) :
    findAssoc m k = none ↔ ∀ p ∈ m, p.1 ≠ k := by
  induction m with
  | nil => simp [findAssoc]
  | cons p rest ih =>
    obtain ⟨k1, v1⟩ := p
    by_cases h : k1 = k
    · subst h
      simp [findAssoc]
    · simp [findAssoc, h, ih]

theorem findAssoc_some_mem {α β : Type} [DecidableEq α] :
    ∀ {m : List (α × β)} {k : α} {v : β},
      findAssoc m k = some v → (k, v) ∈ m := by
  intro m
  induction m with
  | nil => intro k v h; simp [findAssoc] at h
  | cons p rest ih =>
    intro k v h
    obtain ⟨k1, v1⟩ := p
    by_cases hk : k1 = k
    · subst hk
      simp [findAssoc] at h
      subst h
      exact List.mem_cons_self _ _
    · simp [findAssoc, hk] at h
      exact List.mem_cons_of_mem _ (ih h)

theorem findAssoc_cons_submap {α β : Type} [DecidableEq α] {m : List (α × β)}
    {fi : α} {w : β} (hfi : findAssoc m fi = none) (k : α) (v : β)
    (h : findAssoc m k = some v) : findAssoc ((fi, w) :: m) k = some v := by
  have hne : fi ≠ k := by
    intro he
    rw [he] at hfi
    rw [hfi] at h
    cases h
  simp [findAssoc, hne, h]

theorem exceptBind_ok {ε α β : Type} (a : α) (f : α → Except ε β) :
    (Except.ok a >>= f) = f a := rfl

theorem exceptBind_error {ε α β : Type} (e : ε) (f : α → Except ε β) :
    ((Except.error e : Except ε α) >>= f) = Except.error e := rfl

-- ---------------------------------------------------------------- --
-- The consolidation invariant through one corner (C1, C9)
-- ---------------------------------------------------------------- --

theorem processCorner_hit (sqrtQ : ℚ → ℚ) (object : Object) (st : BufState)
    (fi : FaceIndex) (idx : Nat) (h : findAssoc st.indexMap fi = some idx) :
    processCorner sqrtQ object st fi =
      { st with indexBuffer := st.indexBuffer ++ [idx] } := by
  simp [processCorner, h]

theorem processCorner_miss (sqrtQ : ℚ → ℚ) (object : Object) (st : BufState)
    (fi : FaceIndex) (h : findAssoc st.indexMap fi = none) :
    processCorner sqrtQ object st fi =
      { st with
        indexMap := (fi, st.vertexBuffer.length % U32) :: st.indexMap
        vertexBuffer := st.vertexBuffer ++ [MakeVertex sqrtQ object fi]
        indexBuffer := st.indexBuffer ++ [st.vertexBuffer.length % U32] } := by
  simp [processCorner, h]

theorem processCorner_vb_mono (sqrtQ : ℚ → ℚ) (object : Object) (st : BufState)
    (fi : FaceIndex) :
    st.vertexBuffer.length ≤ (processCorner sqrtQ object st fi).vertexBuffer.length := by
  unfold processCorner
  cases h : findAssoc st.indexMap fi <;> simp

theorem processCorner_le (sqrtQ : ℚ → ℚ) (object : Object) (st : BufState)
    (fi : FaceIndex) (h : st.vertexBuffer.length ≤ st.indexBuffer.length) :
    (processCorner sqrtQ object st fi).vertexBuffer.length ≤
      (processCorner sqrtQ object st fi).indexBuffer.length := by
  unfold processCorner
  cases hfi : findAssoc st.indexMap fi <;> simp <;> omega

theorem processCorner_inv (sqrtQ : ℚ → ℚ) (object : Object) (st : BufState)
    (fi : FaceIndex) (hlt : st.vertexBuffer.length < U32) (hinv : BufInv st) :
    BufInv (processCorner sqrtQ object st fi) ∧
    (∀ k v, findAssoc st.indexMap k = some v →
      findAssoc (processCorner sqrtQ object st fi).indexMap k = some v) ∧
    (processCorner sqrtQ object st fi).meshInfo = st.meshInfo ∧
    (∃ w, findAssoc (processCorner sqrtQ object st fi).indexMap fi = some w ∧
      (processCorner sqrtQ object st fi).indexBuffer = st.indexBuffer ++ [w]) ∧
    (∀ k, (findAssoc (processCorner sqrtQ object st fi).indexMap k).isSome →
      (findAssoc st.indexMap k).isSome ∨ k = fi) := by
  obtain ⟨i1, i2, i3, i4, i5⟩ := hinv
  cases hfi : findAssoc st.indexMap fi with
  | some idx =>
    rw [processCorner_hit sqrtQ object st fi idx hfi]
    refine ⟨⟨i1, i2, i3, i4, by simp; omega⟩, fun k v h => h, rfl,
      ⟨idx, hfi, rfl⟩, fun k h => Or.inl h⟩
  | none =>
    rw [processCorner_miss sqrtQ object st fi hfi]
    have hmod : st.vertexBuffer.length % U32 = st.vertexBuffer.length :=
      Nat.mod_eq_of_lt hlt
    have hlen : (st.vertexBuffer ++ [MakeVertex sqrtQ object fi]).length =
        st.vertexBuffer.length + 1 := by simp
    have hkeys : ∀ p ∈ st.indexMap, p.1 ≠ fi := (findAssoc_eq_none _ _).mp hfi
    refine ⟨⟨?_, ?_, ?_, ?_, ?_⟩, ?_, rfl, ?_, ?_⟩
    · intro p hp
      rcases List.mem_cons.mp hp with h | h
      · subst h
        simp [hmod, hlen]
      · have := i1 p h
        simp [hlen]
        omega
    · rw [List.map_cons]
      refine List.nodup_cons.mpr ⟨?_, i2⟩
      intro hmem
      obtain ⟨p, hp, hp1⟩ := List.mem_map.mp hmem
      exact hkeys p hp hp1
    · rw [List.map_cons]
      refine List.nodup_cons.mpr ⟨?_, i3⟩
      intro hmem
      obtain ⟨p, hp, hp2⟩ := List.mem_map.mp hmem
      have := i1 p hp
      rw [hp2, hmod] at this
      omega
    · intro j hj
      rw [hlen] at hj
      by_cases hje : j = st.vertexBuffer.length
      · subst hje
        exact ⟨fi, by rw [hmod]; exact List.mem_cons_self _ _⟩
      · have hjlt : j < st.vertexBuffer.length := by omega
        obtain ⟨k, hk⟩ := i4 j hjlt
        exact ⟨k, List.mem_cons_of_mem _ hk⟩
    · simp
      omega
    · exact fun k v h => findAssoc_cons_submap hfi k v h
    · refine ⟨st.vertexBuffer.length % U32, ?_, rfl⟩
      simp [findAssoc]
    · intro k h
      by_cases hk : fi = k
      · exact Or.inr hk.symm
      · simp only [findAssoc, hk, if_false] at h
        exact Or.inl h

-- ---------------------------------------------------------------- --
-- The consolidation invariant through a corner list
-- ---------------------------------------------------------------- --

theorem processCorners_vb_mono (sqrtQ : ℚ → ℚ) (object : Object) :
    ∀ (cs : List FaceIndex) (st : BufState),
      st.vertexBuffer.length ≤
        (cs.foldl (processCorner sqrtQ object) st).vertexBuffer.length := by
  intro cs
  induction cs with
  | nil => intro st; simp
  | cons c cs ih =>
    intro st
    rw [List.foldl_cons]
    exact (processCorner_vb_mono sqrtQ object st c).trans (ih _)

theorem processCorners_le (sqrtQ : ℚ → ℚ) (object : Object) :
    ∀ (cs : List FaceIndex) (st : BufState),
      st.vertexBuffer.length ≤ st.indexBuffer.length →
      (cs.foldl (processCorner sqrtQ object) st).vertexBuffer.length ≤
        (cs.foldl (processCorner sqrtQ object) st).indexBuffer.length := by
  intro cs
  induction cs with
  | nil => intro st h; simpa using h
  | cons c cs ih =>
    intro st h
    rw [List.foldl_cons]
    exact ih _ (processCorner_le sqrtQ object st c h)

theorem processCorners_spec (sqrtQ : ℚ → ℚ) (object : Object) :
    ∀ (cs : List FaceIndex) (st : BufState),
      (cs.foldl (processCorner sqrtQ object) st).vertexBuffer.length < U32 →
      BufInv st →
      BufInv (cs.foldl (processCorner sqrtQ object) st) ∧
      (∀ k v, findAssoc st.indexMap k = some v →
        findAssoc (cs.foldl (processCorner sqrtQ object) st).indexMap k = some v) ∧
      (cs.foldl (processCorner sqrtQ object) st).meshInfo = st.meshInfo ∧
      (cs.foldl (processCorner sqrtQ object) st).indexBuffer =
        st.indexBuffer ++ cs.map (fun c =>
          (findAssoc (cs.foldl (processCorner sqrtQ object) st).indexMap c).getD 0) ∧
      (∀ c ∈ cs,
        (findAssoc (cs.foldl (processCorner sqrtQ object) st).indexMap c).isSome) ∧
      (∀ k, (findAssoc (cs.foldl (processCorner sqrtQ object) st).indexMap k).isSome →
        (findAssoc st.indexMap k).isSome ∨ k ∈ cs) := by
  intro cs
  induction cs with
  | nil =>
    intro st hfin hinv
    refine ⟨hinv, fun k v h => h, rfl, by simp, by simp, fun k h => Or.inl h⟩
  | cons c cs ih =>
    intro st hfin hinv
    rw [List.foldl_cons] at hfin ⊢
    have hlt : st.vertexBuffer.length < U32 :=
      lt_of_le_of_lt ((processCorner_vb_mono sqrtQ object st c).trans
        (processCorners_vb_mono sqrtQ object cs _)) hfin
    obtain ⟨hinv1, hsub1, hmesh1, ⟨w, hw, hib1⟩, hnew1⟩ :=
      processCorner_inv sqrtQ object st c hlt hinv
    obtain ⟨hinv2, hsub2, hmesh2, hib2, hsome2, hnew2⟩ := ih _ hfin hinv1
    refine ⟨hinv2, fun k v h => hsub2 k v (hsub1 k v h), hmesh2.trans hmesh1, ?_, ?_, ?_⟩
    · have hwfinal : findAssoc
          ((cs.foldl (processCorner sqrtQ object) (processCorner sqrtQ object st c)).indexMap)
          c = some w := hsub2 c w hw
      rw [hib2, hib1, List.map_cons, List.append_assoc]
      congr 2
      rw [hwfinal]
      rfl
    · intro d hd
      rcases List.mem_cons.mp hd with h | h
      · subst h
        rw [hsub2 d w hw]
        rfl
      · exact hsome2 d h
    · intro k h
      rcases hnew2 k h with h1 | h1
      · rcases hnew1 k h1 with h2 | h2
        · exact Or.inl h2
        · exact Or.inr (h2 ▸ List.mem_cons_self _ _)
      · exact Or.inr (List.mem_cons_of_mem _ h1)

-- ---------------------------------------------------------------- --
-- Length bookkeeping for corners and records
-- ---------------------------------------------------------------- --

theorem flatMap_faceIndices_length : ∀ (fs : List Face),
    (fs.flatMap Face.faceIndices).length = 3 * fs.length := by
  intro fs
  induction fs with
  | nil => rfl
  | cons f fs ih =>
    simp [List.flatMap_cons, Face.faceIndices, ih]
    ring

theorem cornersOfSub_length (sm : SubMesh) :
    (cornersOfSub sm).length = 3 * sm.faces.length :=
  flatMap_faceIndices_length sm.faces

theorem flatMap_cornersOfSub_length : ∀ (subs : List SubMesh),
    (subs.flatMap cornersOfSub).length = 3 * totalFaces subs := by
  intro subs
  induction subs with
  | nil => rfl
  | cons sm subs ih =>
    simp [List.flatMap_cons, cornersOfSub_length, ih, totalFaces]
    ring

theorem expectedRecords_length (mm : List (String × Nat)) :
    ∀ (subs : List SubMesh) (s0 : Nat),
      (expectedRecords mm s0 subs).length = subs.length := by
  intro subs
  induction subs with
  | nil => intro s0; rfl
  | cons sm subs ih =>
    intro s0
    simp [expectedRecords, ih]

theorem expectedRecords_bounds (mm : List (String × Nat)) :
    ∀ (subs : List SubMesh) (s0 : Nat) (r : MeshInfo),
      r ∈ expectedRecords mm s0 subs →
      ∃ s sm, sm ∈ subs ∧
        r = ⟨s % U32, sm.faces.length % U32, (findAssoc mm sm.material).getD 0⟩ ∧
        s0 ≤ s ∧ s + 3 * sm.faces.length ≤ s0 + 3 * totalFaces subs := by
  intro subs
  induction subs with
  | nil => intro s0 r hr; simp [expectedRecords] at hr
  | cons sm subs ih =>
    intro s0 r hr
    rw [expectedRecords] at hr
    rcases List.mem_cons.mp hr with h | h
    · refine ⟨s0, sm, List.mem_cons_self _ _, h, le_refl _, ?_⟩
      simp [totalFaces]
    · obtain ⟨s, sm1, hmem, heq, hge, hle⟩ := ih (s0 + 3 * sm.faces.length) r h
      refine ⟨s, sm1, List.mem_cons_of_mem _ hmem, heq, by omega, ?_⟩
      simp [totalFaces] at hle ⊢
      omega

-- ---------------------------------------------------------------- --
-- The consolidation invariant through the submesh fold
-- ---------------------------------------------------------------- --

theorem processSubMesh_ok (sqrtQ : ℚ → ℚ) (object : Object)
    (mm : List (String × Nat)) (st st1 : BufState) (sm : SubMesh)
    (hsm : processSubMesh sqrtQ object mm st sm = .ok st1) :
    ∃ mi, findAssoc mm sm.material = some mi ∧
      (cornersOfSub sm).foldl (processCorner sqrtQ object)
        { st with meshInfo := st.meshInfo ++
            [⟨st.indexBuffer.length % U32, sm.faces.length % U32, mi⟩] } = st1 := by
  cases hmat : findAssoc mm sm.material with
  | none => simp [processSubMesh, hmat] at hsm
  | some mi =>
    simp only [processSubMesh, hmat] at hsm
    injection hsm with hsm
    exact ⟨mi, rfl, hsm⟩

theorem processSubMeshes_vb_mono (sqrtQ : ℚ → ℚ) (object : Object)
    (mm : List (String × Nat)) :
    ∀ (subs : List SubMesh) (st st' : BufState),
      subs.foldlM (processSubMesh sqrtQ object mm) st = .ok st' →
      st.vertexBuffer.length ≤ st'.vertexBuffer.length := by
  intro subs
  induction subs with
  | nil =>
    intro st st' hok
    rw [List.foldlM_nil] at hok
    injection hok with hok
    rw [hok]
  | cons sm subs ih =>
    intro st st' hok
    rw [List.foldlM_cons] at hok
    cases hsm : processSubMesh sqrtQ object mm st sm with
    | error e =>
      rw [hsm, exceptBind_error] at hok
      cases hok
    | ok st1 =>
      rw [hsm, exceptBind_ok] at hok
      obtain ⟨mi, hmat, hfold⟩ := processSubMesh_ok sqrtQ object mm st st1 sm hsm
      have h1 : st.vertexBuffer.length ≤ st1.vertexBuffer.length := by
        rw [← hfold]
        exact processCorners_vb_mono sqrtQ object (cornersOfSub sm)
          { st with meshInfo := st.meshInfo ++
              [⟨st.indexBuffer.length % U32, sm.faces.length % U32, mi⟩] }
      exact h1.trans (ih st1 st' hok)

theorem processSubMeshes_le (sqrtQ : ℚ → ℚ) (object : Object)
    (mm : List (String × Nat)) :
    ∀ (subs : List SubMesh) (st st' : BufState),
      subs.foldlM (processSubMesh sqrtQ object mm) st = .ok st' →
      st.vertexBuffer.length ≤ st.indexBuffer.length →
      st'.vertexBuffer.length ≤ st'.indexBuffer.length := by
  intro subs
  induction subs with
  | nil =>
    intro st st' hok h
    rw [List.foldlM_nil] at hok
    injection hok with hok
    rw [← hok]
    exact h
  | cons sm subs ih =>
    intro st st' hok h
    rw [List.foldlM_cons] at hok
    cases hsm : processSubMesh sqrtQ object mm st sm with
    | error e =>
      rw [hsm, exceptBind_error] at hok
      cases hok
    | ok st1 =>
      rw [hsm, exceptBind_ok] at hok
      obtain ⟨mi, hmat, hfold⟩ := processSubMesh_ok sqrtQ object mm st st1 sm hsm
      have h1 : st1.vertexBuffer.length ≤ st1.indexBuffer.length := by
        rw [← hfold]
        exact processCorners_le sqrtQ object (cornersOfSub sm)
          { st with meshInfo := st.meshInfo ++
              [⟨st.indexBuffer.length % U32, sm.faces.length % U32, mi⟩] } h
      exact ih st1 st' hok h1

theorem processSubMesh_spec (sqrtQ : ℚ → ℚ) (object : Object)
    (mm : List (String × Nat)) (st st1 : BufState) (sm : SubMesh)
    (hsm : processSubMesh sqrtQ object mm st sm = .ok st1)
    (hfin : st1.vertexBuffer.length < U32) (hinv : BufInv st) :
    BufInv st1 ∧
    (∀ k v, findAssoc st.indexMap k = some v → findAssoc st1.indexMap k = some v) ∧
    (∃ mi, findAssoc mm sm.material = some mi ∧
      st1.meshInfo = st.meshInfo ++
        [⟨st.indexBuffer.length % U32, sm.faces.length % U32, mi⟩]) ∧
    st1.indexBuffer = st.indexBuffer ++
      (cornersOfSub sm).map (fun c => (findAssoc st1.indexMap c).getD 0) ∧
    (∀ c ∈ cornersOfSub sm, (findAssoc st1.indexMap c).isSome) ∧
    (∀ k, (findAssoc st1.indexMap k).isSome →
      (findAssoc st.indexMap k).isSome ∨ k ∈ cornersOfSub sm) := by
  obtain ⟨mi, hmat, hfold⟩ := processSubMesh_ok sqrtQ object mm st st1 sm hsm
  have hfoldfin : ((cornersOfSub sm).foldl (processCorner sqrtQ object)
      { st with meshInfo := st.meshInfo ++
          [⟨st.indexBuffer.length % U32, sm.faces.length % U32, mi⟩] }).vertexBuffer.length
        < U32 := by
    rw [hfold]
    exact hfin
  have hinvrec : BufInv { st with meshInfo := st.meshInfo ++
      [⟨st.indexBuffer.length % U32, sm.faces.length % U32, mi⟩] } := hinv
  obtain ⟨hinv1, hsub1, hmesh1, hib1, hsome1, hnew1⟩ :=
    processCorners_spec sqrtQ object (cornersOfSub sm)
      { st with meshInfo := st.meshInfo ++
          [⟨st.indexBuffer.length % U32, sm.faces.length % U32, mi⟩] } hfoldfin hinvrec
  rw [hfold] at hinv1 hsub1 hmesh1 hib1 hsome1 hnew1
  exact ⟨hinv1, hsub1, ⟨mi, hmat, hmesh1⟩, hib1, hsome1, hnew1⟩

theorem processSubMeshes_spec (sqrtQ : ℚ → ℚ) (object : Object)
    (mm : List (String × Nat)) :
    ∀ (subs : List SubMesh) (st st' : BufState),
      subs.foldlM (processSubMesh sqrtQ object mm) st = .ok st' →
      st'.vertexBuffer.length < U32 →
      BufInv st →
      BufInv st' ∧
      (∀ k v, findAssoc st.indexMap k = some v → findAssoc st'.indexMap k = some v) ∧
      st'.meshInfo = st.meshInfo ++ expectedRecords mm st.indexBuffer.length subs ∧
      st'.indexBuffer = st.indexBuffer ++
        (subs.flatMap cornersOfSub).map (fun c => (findAssoc st'.indexMap c).getD 0) ∧
      (∀ c ∈ subs.flatMap cornersOfSub, (findAssoc st'.indexMap c).isSome) ∧
      (∀ k, (findAssoc st'.indexMap k).isSome →
        (findAssoc st.indexMap k).isSome ∨ k ∈ subs.flatMap cornersOfSub) ∧
      (∀ sm ∈ subs, (findAssoc mm sm.material).isSome) := by
  intro subs
  induction subs with
  | nil =>
    intro st st' hok hfin hinv
    rw [List.foldlM_nil] at hok
    injection hok with hok
    subst hok
    exact ⟨hinv, fun k v h => h, by simp [expectedRecords], by simp, by simp,
      fun k h => Or.inl h, by simp⟩
  | cons sm subs ih =>
    intro st st' hok hfin hinv
    rw [List.foldlM_cons] at hok
    cases hsm : processSubMesh sqrtQ object mm st sm with
    | error e =>
      rw [hsm, exceptBind_error] at hok
      cases hok
    | ok st1 =>
      rw [hsm, exceptBind_ok] at hok
      have hst1fin : st1.vertexBuffer.length < U32 :=
        lt_of_le_of_lt (processSubMeshes_vb_mono sqrtQ object mm subs st1 st' hok) hfin
      obtain ⟨hinv1, hsub1, ⟨mi, hmat, hmesh1⟩, hib1, hsome1, hnew1⟩ :=
        processSubMesh_spec sqrtQ object mm st st1 sm hsm hst1fin hinv
      obtain ⟨hinv2, hsub2, hmesh2, hib2, hsome2, hnew2, hmats2⟩ :=
        ih st1 st' hok hfin hinv1
      have hib1len : st1.indexBuffer.length =
          st.indexBuffer.length + 3 * sm.faces.length := by
        rw [hib1]
        simp [cornersOfSub_length]
      refine ⟨hinv2, fun k v h => hsub2 k v (hsub1 k v h), ?_, ?_, ?_, ?_, ?_⟩
      · rw [hmesh2, hmesh1, hib1len, expectedRecords, hmat, List.append_assoc]
        rfl
      · have hcong : (cornersOfSub sm).map (fun c => (findAssoc st1.indexMap c).getD 0) =
            (cornersOfSub sm).map (fun c => (findAssoc st'.indexMap c).getD 0) := by
          apply List.map_congr_left
          intro c hc
          obtain ⟨w, hw⟩ := Option.isSome_iff_exists.mp (hsome1 c hc)
          rw [hw, hsub2 c w hw]
        rw [hib2, hib1, hcong, List.flatMap_cons, List.map_append, List.append_assoc]
      · intro c hc
        rw [List.flatMap_cons] at hc
        rcases List.mem_append.mp hc with h | h
        · obtain ⟨w, hw⟩ := Option.isSome_iff_exists.mp (hsome1 c h)
          rw [hsub2 c w hw]
          rfl
        · exact hsome2 c h
      · intro k h
        rcases hnew2 k h with h1 | h1
        · rcases hnew1 k h1 with h2 | h2
          · exact Or.inl h2
          · refine Or.inr ?_
            rw [List.flatMap_cons]
            exact List.mem_append.mpr (Or.inl h2)
        · refine Or.inr ?_
          rw [List.flatMap_cons]
          exact List.mem_append.mpr (Or.inr h1)
      · intro d hd
        rcases List.mem_cons.mp hd with h | h
        · subst h
          rw [hmat]
          rfl
        · exact hmats2 d h

-- ---------------------------------------------------------------- --
-- Theorems for claims C1 and C9 (CreateBufferData)
-- ---------------------------------------------------------------- --

/-- C1: the consolidator assigns exactly one vertex-buffer slot per
distinct composite key and reuses that slot's index on every later
occurrence: for the state `CreateBufferData` returns, every map entry
points below the vertex-buffer length, keys and slot values are both
unrepeated, and every vertex-buffer position is the slot of some entry —
so the composite-key→vertex-index map is a bijection from the first-seen
keys onto the vertex-buffer positions; the map holds exactly the keys
occurring in the scene; the index buffer is pointwise the map's lookup
of the corner occurrences in processing order (each occurrence of a key
yields that key's one slot index); and the vertex-buffer size is at most
the index-buffer size, which equals the total number of face-index
occurrences. -/
theorem createBufferData_bijection (sqrtQ : ℚ → ℚ) (object : Object)
    (materialIndexMap : List (String × Nat)) (st : BufState)
    (hok : CreateBufferData sqrtQ object materialIndexMap = .ok st)
    (hfin : st.vertexBuffer.length < U32) :
    (∀ p ∈ st.indexMap, p.2 < st.vertexBuffer.length) ∧
    (st.indexMap.map Prod.fst).Nodup ∧
    (st.indexMap.map Prod.snd).Nodup ∧
    (∀ j, j < st.vertexBuffer.length → ∃ k, (k, j) ∈ st.indexMap) ∧
    (∀ k, (findAssoc st.indexMap k).isSome ↔ k ∈ sceneCorners object) ∧
    st.indexBuffer =
      (sceneCorners object).map (fun c => (findAssoc st.indexMap c).getD 0) ∧
    st.vertexBuffer.length ≤ st.indexBuffer.length ∧
    st.indexBuffer.length = (sceneCorners object).length := by
  have hinv0 : BufInv (⟨[], [], [], []⟩ : BufState) := by
    refine ⟨by simp, by simp, by simp, ?_, by simp⟩
    intro j hj
    simp at hj
  obtain ⟨hinv, hsub, hmesh, hib, hsome, hnew, hmats⟩ :=
    processSubMeshes_spec sqrtQ object materialIndexMap (sceneSubMeshes object)
      ⟨[], [], [], []⟩ st hok hfin hinv0
  obtain ⟨i1, i2, i3, i4, i5⟩ := hinv
  refine ⟨i1, i2, i3, i4, ?_, ?_, i5, ?_⟩
  · intro k
    constructor
    · intro h
      rcases hnew k h with h1 | h1
      · simp [findAssoc] at h1
      · exact h1
    · intro h
      exact hsome k h
  · rw [hib]
    simp [sceneCorners]
  · rw [hib]
    simp [sceneCorners]

/-- Witness for C1 on the demo scene: two triangles sharing an edge, six
corner occurrences over four distinct composite keys. -/
theorem createBufferData_bijection_witness :
    (∀ p ∈ demoBuf.indexMap, p.2 < demoBuf.vertexBuffer.length) ∧
    (demoBuf.indexMap.map Prod.fst).Nodup ∧
    (demoBuf.indexMap.map Prod.snd).Nodup ∧
    (∀ j, j < demoBuf.vertexBuffer.length → ∃ k, (k, j) ∈ demoBuf.indexMap) ∧
    (∀ k, (findAssoc demoBuf.indexMap k).isSome ↔ k ∈ sceneCorners demoObject) ∧
    demoBuf.indexBuffer =
      (sceneCorners demoObject).map (fun c => (findAssoc demoBuf.indexMap c).getD 0) ∧
    demoBuf.vertexBuffer.length ≤ demoBuf.indexBuffer.length ∧
    demoBuf.indexBuffer.length = (sceneCorners demoObject).length :=
  createBufferData_bijection idq demoObject demoMatMap demoBuf (by rfl) (by decide)

/-- C9: after consolidation, `CreateBufferData` emits exactly one
`MeshInfo` record per submesh in encounter order — `meshInfo` equals the
record list determined by the submesh sequence, whose i-th entry carries
the i-th submesh's triangle count and its material's table index — and
every record satisfies startIndex + primCount*3 ≤ index-buffer length
with materialIndex inside the material table. -/
theorem createBufferData_records (sqrtQ : ℚ → ℚ) (object : Object)
    (materialIndexMap : List (String × Nat)) (st : BufState) (matCount : Nat)
    (hok : CreateBufferData sqrtQ object materialIndexMap = .ok st)
    (hfin : st.indexBuffer.length < U32)
    (hmat : ∀ p ∈ materialIndexMap, p.2 < matCount) :
    st.meshInfo = expectedRecords materialIndexMap 0 (sceneSubMeshes object) ∧
    st.meshInfo.length = (sceneSubMeshes object).length ∧
    (∀ r ∈ st.meshInfo,
      r.startIndex + r.primCount * 3 ≤ st.indexBuffer.length ∧
      r.materialIndex < matCount) := by
  have hvb : st.vertexBuffer.length ≤ st.indexBuffer.length :=
    processSubMeshes_le sqrtQ object materialIndexMap (sceneSubMeshes object)
      ⟨[], [], [], []⟩ st hok (by simp)
  have hfinv : st.vertexBuffer.length < U32 := lt_of_le_of_lt hvb hfin
  have hinv0 : BufInv (⟨[], [], [], []⟩ : BufState) := by
    refine ⟨by simp, by simp, by simp, ?_, by simp⟩
    intro j hj
    simp at hj
  obtain ⟨hinv, hsub, hmesh, hib, hsome, hnew, hmats⟩ :=
    processSubMeshes_spec sqrtQ object materialIndexMap (sceneSubMeshes object)
      ⟨[], [], [], []⟩ st hok hfinv hinv0
  have hmeshz : st.meshInfo = expectedRecords materialIndexMap 0 (sceneSubMeshes object) := by
    simpa using hmesh
  have hiblen : st.indexBuffer.length = 3 * totalFaces (sceneSubMeshes object) := by
    have hlen : st.indexBuffer.length =
        (((sceneSubMeshes object).flatMap cornersOfSub).map
          (fun c => (findAssoc st.indexMap c).getD 0)).length := by
      rw [hib]
      rfl
    rw [hlen, List.length_map, flatMap_cornersOfSub_length]
  refine ⟨hmeshz, by rw [hmeshz]; exact expectedRecords_length _ _ 0, ?_⟩
  intro r hr
  rw [hmeshz] at hr
  obtain ⟨s, sm, hsm, heq, hge, hle⟩ :=
    expectedRecords_bounds materialIndexMap (sceneSubMeshes object) 0 r hr
  have hbound : s + 3 * sm.faces.length ≤ st.indexBuffer.length := by
    rw [hiblen]
    omega
  have hslt : s < U32 := by omega
  have hflt : sm.faces.length < U32 := by omega
  subst heq
  constructor
  · show s % U32 + sm.faces.length % U32 * 3 ≤ st.indexBuffer.length
    rw [Nat.mod_eq_of_lt hslt, Nat.mod_eq_of_lt hflt]
    omega
  · show (findAssoc materialIndexMap sm.material).getD 0 < matCount
    obtain ⟨mi, hmi⟩ := Option.isSome_iff_exists.mp (hmats sm hsm)
    rw [hmi]
    exact hmat _ (findAssoc_some_mem hmi)

/-- Witness for C9 on the demo scene with a one-entry material table. -/
theorem createBufferData_records_witness :
    demoBuf.meshInfo = expectedRecords demoMatMap 0 (sceneSubMeshes demoObject) ∧
    demoBuf.meshInfo.length = (sceneSubMeshes demoObject).length ∧
    (∀ r ∈ demoBuf.meshInfo,
      r.startIndex + r.primCount * 3 ≤ demoBuf.indexBuffer.length ∧
      r.materialIndex < 1) :=
  createBufferData_records idq demoObject demoMatMap demoBuf 1
    (by rfl) (by decide) (by decide)

end ObjToImdl
